import Mathlib

/-!
Shallow embedding of the screenshot-testing workflow of
`material-components-web` (files `src/test/screenshot/lib/snapshot-store.js`
— the `SnapshotStore` and `ImageDiffer` classes — and the `Controller` class
in `src/scripts/cherry-pick-patch-commits.js`), together with proofs about
the baseline-merge, classification and naming operations.

JSON objects are modelled as association lists with unique keys kept in
insertion order (JavaScript objects preserve insertion order for string
keys); JSON `null` and JavaScript `undefined` are modelled with `Option`,
and JavaScript truthiness tests are made explicit wherever the source
relies on them.
-/

namespace MDC

/-- A JSON value that is a string or `null` (`none`). -/
abbrev Url := Option String

/-- A binary image buffer (a Node.js `Buffer`), as a list of bytes. -/
abbrev Buffer := List Nat

/-- JavaScript truthiness of a string-or-null value: `null` and the empty
string are falsy, every other string is truthy. -/
def jsTruthy : Url → Bool
  | none => false
  | some s => !(s == "")

/-- JavaScript truthiness of a property access that may also be `undefined`
(`none` at the outer level): `undefined`, `null` and `""` are all falsy. -/
def jsTruthyProp : Option Url → Bool
  | none => false
  | some u => jsTruthy u

/-- JavaScript strict equality `x === y` where `x` may be `undefined`
(`none`) and `y` is a string: `undefined === s` is `false`. -/
def jsStrictEq : Option String → String → Bool
  | some s, t => s == t
  | none, _ => false

/-- Property read `obj[k]` on a JSON object: the value, or `none` for
`undefined` when the key is absent. -/
def objGet : List (String × α) → String → Option α
  | [], _ => none
  | (k', v) :: rest, k => if k' = k then some v else objGet rest k

/-- Property write `obj[k] = v` on a JSON object: replaces the value in
place when the key exists (keys keep their insertion order), appends the
new key otherwise. -/
def objSet : List (String × α) → String → α → List (String × α)
  | [], k, v => [(k, v)]
  | (k', v') :: rest, k, v =>
    if k' = k then (k, v) :: rest else (k', v') :: objSet rest k v

/-- Property removal `delete obj[k]` on a JSON object: drops the (unique)
binding of `k`, keeping the order of the other keys. -/
def objDelete : List (String × α) → String → List (String × α)
  | [], _ => []
  | (k', v') :: rest, k => if k' = k then rest else (k', v') :: objDelete rest k

/-- One page entry of a `golden.json` / `snapshot.json` manifest:
`{publicUrl, screenshots: {userAgentAlias: url}}`. -/
structure SnapshotPage where
  publicUrl : Url
  screenshots : List (String × Url)
deriving DecidableEq

/-- A whole manifest (`SnapshotSuiteJson`): html file path → page entry. -/
abbrev SnapshotSuite := List (String × SnapshotPage)

/-- One uploaded screenshot image of a test case: its user-agent alias
(`screenshotImageFile.userAgent.alias`) and its public URL. -/
structure ScreenshotImageFile where
  userAgentAlias : String
  publicUrl : String
deriving DecidableEq

/-- An `UploadableTestCase`: the html file's destination-relative path, its
public URL, and the per-browser screenshot images captured for it. -/
structure UploadableTestCase where
  destinationRelativeFilePath : String
  publicUrl : String
  screenshotImageFiles : List ScreenshotImageFile
deriving DecidableEq

/-- The page entry one test case contributes in
`SnapshotStore.fromTestCases`: `{publicUrl: htmlFileUrl, screenshots: {}}`
filled with one key per screenshot image. -/
def testCasePage (testCase : UploadableTestCase) : SnapshotPage :=
  { publicUrl := some testCase.publicUrl
    screenshots := testCase.screenshotImageFiles.foldl
      (fun m f => objSet m f.userAgentAlias (some f.publicUrl)) [] }

/-- `SnapshotStore.fromTestCases`: transforms test cases into `golden.json`
format. Each test case writes a fresh page entry under its html file key,
then records every screenshot image under its user-agent alias. -/
def fromTestCases (testCases : List UploadableTestCase) : SnapshotSuite :=
  testCases.foldl
    (fun jsonData testCase =>
      objSet jsonData testCase.destinationRelativeFilePath (testCasePage testCase))
    []

/-- One entry of a classified report (`ImageDiffJson`), exactly the fields
that `ImageDiffer` writes into it. -/
structure ImageDiffJson where
  htmlFilePath : String
  goldenPageUrl : Url
  snapshotPageUrl : Url
  userAgentAlias : String
  expectedImageUrl : Url
  actualImageUrl : Url
  diffImageBuffer : Option Buffer
  diffImageUrl : Url
deriving DecidableEq

/-- The property access `diff.browserKey` performed by
`SnapshotStore.updateAllScreenshots_` and `updateFilteredScreenshots_`.
Report entries are created by `ImageDiffer` (and round-tripped through
JSON) with exactly the fields of `ImageDiffJson`; none of them is named
`browserKey`, so the access always evaluates to `undefined`. -/
def browserKeyProp (_ : ImageDiffJson) : Option String := none

/-- The property access `screenshots.length` performed by
`SnapshotStore.writeFilteredToDisk_` after an approved removal. The
`screenshots` map is a plain JSON object, not an array; it has no own
`length` property, so the access always evaluates to `undefined` (and
`undefined === 0` is `false`). -/
def screenshotsLengthProp (_ : List (String × Url)) : Option Nat := none

/-- A classified report (`ReportSuiteJson`): the four buckets plus the test
cases that produced them. -/
structure ReportSuiteJson where
  diffs : List ImageDiffJson
  added : List ImageDiffJson
  removed : List ImageDiffJson
  unchanged : List ImageDiffJson
  testCases : List UploadableTestCase
deriving DecidableEq

/-- The `(htmlFilePath, userAgentAlias)` pair of a report entry. -/
def entryPair (d : ImageDiffJson) : String × String :=
  (d.htmlFilePath, d.userAgentAlias)

/-- One approval filter: an `(htmlFilePath, userAgentAlias)` pair the human
explicitly accepted (`--mdc-approve-diff='path:alias'` and friends). -/
abbrev ApprovalFilter := String × String

/-- The `filters.find(...)` test of `SnapshotStore.writeFilteredToDisk_`:
an entry passes when some filter matches its html file path and user-agent
alias. -/
def findMatchingFilter (filters : List ApprovalFilter) (entry : ImageDiffJson) : Bool :=
  filters.any (fun f => f.1 == entry.htmlFilePath && f.2 == entry.userAgentAlias)

/-- The `reportJson.diffs.forEach` body of `writeFilteredToDisk_`:
`newJsonData[htmlFilePath].screenshots[userAgentAlias] = snapshotPageUrl`.
Reading `.screenshots` of an absent page entry throws a `TypeError`,
modelled as `none`. -/
def approveOneDiff (data : SnapshotSuite) (diff : ImageDiffJson) : Option SnapshotSuite :=
  match objGet data diff.htmlFilePath with
  | none => none
  | some page =>
    some (objSet data diff.htmlFilePath
      { page with screenshots := objSet page.screenshots diff.userAgentAlias diff.snapshotPageUrl })

/-- The `reportJson.added.forEach` body of `writeFilteredToDisk_`:
`newJsonData[p] = newJsonData[p] || {publicUrl: snapshotPageUrl, screenshots: {}}`
(an existing page object is truthy), then
`newJsonData[p].screenshots[userAgentAlias] = snapshotPageUrl`. -/
def approveOneAdded (data : SnapshotSuite) (added : ImageDiffJson) : SnapshotSuite :=
  let page : SnapshotPage :=
    match objGet data added.htmlFilePath with
    | some page => page
    | none => { publicUrl := added.snapshotPageUrl, screenshots := [] }
  objSet data added.htmlFilePath
    { page with screenshots := objSet page.screenshots added.userAgentAlias added.snapshotPageUrl }

/-- The `reportJson.removed.forEach` body of `writeFilteredToDisk_`:
`delete newJsonData[p].screenshots[userAgentAlias]`, then
`if (newJsonData[p].screenshots.length === 0) delete newJsonData[p]`
(see `screenshotsLengthProp` for the `.length` access). Reading
`.screenshots` of an absent page entry throws a `TypeError` (`none`). -/
def approveOneRemoved (data : SnapshotSuite) (removed : ImageDiffJson) : Option SnapshotSuite :=
  match objGet data removed.htmlFilePath with
  | none => none
  | some page =>
    let page' : SnapshotPage :=
      { page with screenshots := objDelete page.screenshots removed.userAgentAlias }
    let data' := objSet data removed.htmlFilePath page'
    if screenshotsLengthProp page'.screenshots == some 0 then
      some (objDelete data' removed.htmlFilePath)
    else
      some data'

/-- `SnapshotStore.writeFilteredToDisk_`: keeps only the report entries
matched by the per-bucket approval filters, then applies the surviving
diffs, adds and removes (in that order) onto a deep clone of the current
baseline (`fromDiffBase`), passed here as `oldJsonData`. Structural
cloning is the identity in this model. `none` models a thrown
`TypeError`. -/
def writeFilteredToDisk_ (reportJson : ReportSuiteJson)
    (approvedDiffs approvedAdds approvedRemoves : List ApprovalFilter)
    (oldJsonData : SnapshotSuite) : Option SnapshotSuite :=
  let diffs := reportJson.diffs.filter (findMatchingFilter approvedDiffs)
  let added := reportJson.added.filter (findMatchingFilter approvedAdds)
  let removed := reportJson.removed.filter (findMatchingFilter approvedRemoves)
  do
    let afterDiffs ← diffs.foldlM approveOneDiff oldJsonData
    let afterAdds := added.foldl approveOneAdded afterDiffs
    removed.foldlM approveOneRemoved afterAdds

/-- `SnapshotStore.updateAllScreenshots_` (the unfiltered full-approval
merge): rebuilds the manifest from the report's test cases, then, for every
page that also exists in the old baseline, restores the old URL of every
screenshot whose old URL is truthy and for which no diff is found (the
`diffs.find` compares `diff.browserKey` — see `browserKeyProp`), and
restores the old page-level `publicUrl` when no screenshot of the page had
a diff. -/
def updateAllScreenshots_ (reportJson : ReportSuiteJson) (oldJsonData : SnapshotSuite) :
    SnapshotSuite :=
  let newJsonData := fromTestCases reportJson.testCases
  newJsonData.map (fun entry =>
    let htmlFilePath := entry.1
    let newPage := entry.2
    match objGet oldJsonData htmlFilePath with
    | none => entry
    | some oldPage =>
      let screenshotHasDiff := fun (browserKey : String) =>
        reportJson.diffs.any (fun diff =>
          diff.htmlFilePath == htmlFilePath && jsStrictEq (browserKeyProp diff) browserKey)
      let screenshots := newPage.screenshots.map (fun s =>
        match objGet oldPage.screenshots s.1 with
        | some oldUrl =>
          if jsTruthy oldUrl && !(screenshotHasDiff s.1) then (s.1, oldUrl) else s
        | none => s)
      let pageHasDiffs := newPage.screenshots.any (fun s => screenshotHasDiff s.1)
      (htmlFilePath,
        { publicUrl := if pageHasDiffs then newPage.publicUrl else oldPage.publicUrl
          screenshots := screenshots }))

/-- A `(revision, path)` baseline source (`DiffSource.gitRevision`): only
the fields `fetchGoldenJsonString_` reads. -/
structure GitRevision where
  commit : String
  snapshotFilePath : String
deriving DecidableEq

/-- The duck-typed baseline source produced by `cliArgs.parseDiffBase()`:
at most one of the three arms is populated. -/
structure DiffSource where
  publicUrl : Url
  localFilePath : Url
  gitRevision : Option GitRevision
deriving DecidableEq

/-- A truthy string-or-null value as the string itself, `none` otherwise. -/
def truthyString : Url → Option String
  | some s => if s == "" then none else some s
  | none => none

/-- `SnapshotStore.fetchGoldenJsonString_`: tries the public URL, then the
local file path, then the git revision (each guarded by a truthiness
test), and otherwise throws an error naming the raw `--mdc-diff-base`
input. The three collaborators (`request`, `fs.readFile`,
`gitRepo.getFileAtRevision`) are abstracted as functions. -/
def fetchGoldenJsonString_ (request readFile : String → String)
    (getFileAtRevision : String → String → String)
    (diffSource : DiffSource) (rawDiffBase : String) : Except String String :=
  match truthyString diffSource.publicUrl with
  | some publicUrl => Except.ok (request publicUrl)
  | none =>
    match truthyString diffSource.localFilePath with
    | some localFilePath => Except.ok (readFile localFilePath)
    | none =>
      match diffSource.gitRevision with
      | some rev => Except.ok (getFileAtRevision rev.snapshotFilePath rev.commit)
      | none =>
        Except.error
          ("Unable to parse '--mdc-diff-base=" ++ rawDiffBase ++
            "': Expected a URL, local file path, or git ref")

/-- JavaScript `\w` character class: ASCII letters, digits and `_`. -/
def isWordChar (c : Char) : Bool :=
  ('a' ≤ c && c ≤ 'z') || ('A' ≤ c && c ≤ 'Z') || ('0' ≤ c && c ≤ '9') || c == '_'

/-- An ASCII digit, the JavaScript `\d` class. -/
def isDigitChar (c : Char) : Bool :=
  '0' ≤ c && c ≤ '9'

/-- The `osApiName.replace` with the end-anchored regex `-E\d+$`: removes a
trailing `-E<digits>` suffix (at least one digit) when present, and leaves
the string unchanged otherwise. -/
def stripMsEdgeVersionSuffix (os : List Char) : List Char :=
  let rev := os.reverse
  let digits := rev.takeWhile isDigitChar
  match digits, rev.drop digits.length with
  | _ :: _, e :: dash :: rest =>
    if e = 'E' ∧ dash = '-' then rest.reverse else os
  | _, _ => os

/-- `Controller.getBrowserFileName_`: strips the `-E<digits>` suffix from
the OS API name, joins `{os}_{browser}`, lowercases, and removes every
character outside `[\w.]` (the `.replace(/[^\w.]+/g, '')`). -/
def getBrowserFileName_ (osApiName browserApiName : String) : String :=
  let combined := stripMsEdgeVersionSuffix osApiName.toList ++ '_' :: browserApiName.toList
  String.mk ((combined.map Char.toLower).filter (fun c => isWordChar c || c == '.'))

/-- The result of one `resemblejs` `compareImages` invocation
(`ResembleApiComparisonResult`): the raw mismatch percentage (a number in
`[0, 100]`; modelled exactly as a rational) and the diff image returned by
`getBuffer()` (a `Buffer` object, which is always truthy in JavaScript). -/
structure ResembleApiComparisonResult where
  rawMisMatchPercentage : ℚ
  buffer : Buffer
deriving DecidableEq

/-- The image-comparison collaborator: `ImageDiffer.computeDiff_` composed
with the two `imageCache.getImageBuffer` downloads, abstracted as a total
function from the two image URLs to the comparison result. -/
abbrev ResembleFn := Url → Url → ResembleApiComparisonResult

/-- `ImageDiffer.compareOneImage_`: runs the comparator and returns `null`
(discarding the diff image) when `rawMisMatchPercentage < 0.01`, the diff
image buffer otherwise. -/
def compareOneImage_ (computeDiff : ResembleFn) (actualImageUrl expectedImageUrl : Url) :
    Option Buffer :=
  let diffResult := computeDiff actualImageUrl expectedImageUrl
  if diffResult.rawMisMatchPercentage < 0.01 then none
  else some diffResult.buffer

/-- `ImageDiffer.compareOnePage_`: compares every screenshot of the actual
page whose user-agent alias has a truthy expected URL (`if
(!expectedImageUrl) continue`), producing one report entry per compared
screenshot. -/
def compareOnePage_ (computeDiff : ResembleFn) (htmlFilePath : String)
    (goldenPageUrl snapshotPageUrl : Url) (actualPage expectedPage : SnapshotPage) :
    List ImageDiffJson :=
  actualPage.screenshots.filterMap (fun s =>
    match objGet expectedPage.screenshots s.1 with
    | none => none
    | some expectedImageUrl =>
      if jsTruthy expectedImageUrl then
        some
          { htmlFilePath := htmlFilePath
            goldenPageUrl := goldenPageUrl
            snapshotPageUrl := snapshotPageUrl
            userAgentAlias := s.1
            expectedImageUrl := expectedImageUrl
            actualImageUrl := s.2
            diffImageUrl := none
            diffImageBuffer := compareOneImage_ computeDiff s.2 expectedImageUrl }
      else none)

/-- `ImageDiffer.getAddedActualScreenshotsAsDiffObjects_`: the actual
screenshots of a page present in both suites whose alias has no truthy
expected URL. -/
def getAddedActualScreenshotsAsDiffObjects_ (expectedPage actualPage : SnapshotPage)
    (htmlFilePath : String) : List ImageDiffJson :=
  actualPage.screenshots.filterMap (fun s =>
    if jsTruthyProp (objGet expectedPage.screenshots s.1) then none
    else
      some
        { htmlFilePath := htmlFilePath
          goldenPageUrl := none
          snapshotPageUrl := actualPage.publicUrl
          userAgentAlias := s.1
          actualImageUrl := s.2
          expectedImageUrl := none
          diffImageBuffer := none
          diffImageUrl := none })

/-- `ImageDiffer.getAllActualScreenshotsAsDiffObjects_`: every screenshot of
a wholly new page. -/
def getAllActualScreenshotsAsDiffObjects_ (actualPage : SnapshotPage) (htmlFilePath : String) :
    List ImageDiffJson :=
  actualPage.screenshots.map (fun s =>
    { htmlFilePath := htmlFilePath
      goldenPageUrl := none
      snapshotPageUrl := actualPage.publicUrl
      userAgentAlias := s.1
      actualImageUrl := s.2
      expectedImageUrl := none
      diffImageBuffer := none
      diffImageUrl := none })

/-- `ImageDiffer.getAdded_`: walks the actual suite; a page with an expected
counterpart (a present page object is truthy) contributes its expected-less
screenshots, a wholly new page contributes all of them. -/
def getAdded_ (expectedSuite actualSuite : SnapshotSuite) : List ImageDiffJson :=
  actualSuite.flatMap (fun entry =>
    match objGet expectedSuite entry.1 with
    | some expectedPage => getAddedActualScreenshotsAsDiffObjects_ expectedPage entry.2 entry.1
    | none => getAllActualScreenshotsAsDiffObjects_ entry.2 entry.1)

/-- `ImageDiffer.getRemovedExpectedScreenshotsAsDiffObjects_`: the expected
screenshots of a page present in both suites whose alias has no truthy
actual URL. -/
def getRemovedExpectedScreenshotsAsDiffObjects_ (expectedPage actualPage : SnapshotPage)
    (htmlFilePath : String) : List ImageDiffJson :=
  expectedPage.screenshots.filterMap (fun s =>
    if jsTruthyProp (objGet actualPage.screenshots s.1) then none
    else
      some
        { htmlFilePath := htmlFilePath
          goldenPageUrl := expectedPage.publicUrl
          snapshotPageUrl := none
          userAgentAlias := s.1
          actualImageUrl := none
          expectedImageUrl := s.2
          diffImageBuffer := none
          diffImageUrl := none })

/-- `ImageDiffer.getAllExpectedScreenshotsAsDiffObjects_`: every screenshot
of a page that disappeared from the actual suite. -/
def getAllExpectedScreenshotsAsDiffObjects_ (expectedPage : SnapshotPage) (htmlFilePath : String) :
    List ImageDiffJson :=
  expectedPage.screenshots.map (fun s =>
    { htmlFilePath := htmlFilePath
      goldenPageUrl := expectedPage.publicUrl
      snapshotPageUrl := none
      userAgentAlias := s.1
      actualImageUrl := none
      expectedImageUrl := s.2
      diffImageBuffer := none
      diffImageUrl := none })

/-- `ImageDiffer.getRemoved_`: symmetric to `getAdded_`, walking the
expected suite. -/
def getRemoved_ (expectedSuite actualSuite : SnapshotSuite) : List ImageDiffJson :=
  expectedSuite.flatMap (fun entry =>
    match objGet actualSuite entry.1 with
    | some actualPage => getRemovedExpectedScreenshotsAsDiffObjects_ entry.2 actualPage entry.1
    | none => getAllExpectedScreenshotsAsDiffObjects_ entry.2 entry.1)

/-- The `String.prototype.localeCompare(other, 'en-US')` collaborator,
abstracted as a total comparison function returning a signed integer. -/
abbrev LocaleCompareFn := String → String → Int

/-- The `compareDiffsForSorting` comparator of `ImageDiffer.compareAllPages`:
`a.htmlFilePath.localeCompare(b.htmlFilePath, 'en-US') ||
a.userAgentAlias.localeCompare(b.userAgentAlias, 'en-US')` — JavaScript `||`
keeps the first operand when it is a non-zero number. -/
def compareDiffsForSorting (localeCompare : LocaleCompareFn) (a b : ImageDiffJson) : Int :=
  let byPath := localeCompare a.htmlFilePath b.htmlFilePath
  if byPath == 0 then localeCompare a.userAgentAlias b.userAgentAlias else byPath

/-- The ordering a JavaScript `Array.prototype.sort` establishes under the
comparator `compareDiffsForSorting`: `a` may stay before `b` when the
comparator does not order `b` strictly first. -/
abbrev sortLe (localeCompare : LocaleCompareFn) (a b : ImageDiffJson) : Prop :=
  compareDiffsForSorting localeCompare a b ≤ 0

/-- The flattened `pageComparisonResults` of `ImageDiffer.compareAllPages`:
one comparison record per (page, browser) compared, for every page of the
actual suite whose expected counterpart exists (`if (!expectedPage)
continue`). -/
def pageComparisonResults (computeDiff : ResembleFn)
    (actualSuite expectedSuite : SnapshotSuite) : List ImageDiffJson :=
  actualSuite.flatMap (fun entry =>
    match objGet expectedSuite entry.1 with
    | none => []
    | some expectedPage =>
      compareOnePage_ computeDiff entry.1 expectedPage.publicUrl entry.2.publicUrl
        entry.2 expectedPage)

/-- `ImageDiffer.compareAllPages`: builds the added and removed buckets,
compares every page present in both suites, splits the comparison results
into diffs (truthy `diffImageBuffer`) and unchanged, and sorts all four
buckets with `compareDiffsForSorting`. JavaScript `Array.prototype.sort`
is a stable sort, modelled with `List.insertionSort`. -/
def compareAllPages (computeDiff : ResembleFn) (localeCompare : LocaleCompareFn)
    (testCases : List UploadableTestCase) (actualSuite expectedSuite : SnapshotSuite) :
    ReportSuiteJson :=
  let added := getAdded_ expectedSuite actualSuite
  let removed := getRemoved_ expectedSuite actualSuite
  let results := pageComparisonResults computeDiff actualSuite expectedSuite
  let diffs := results.filter (fun r => r.diffImageBuffer.isSome)
  let unchanged := results.filter (fun r => r.diffImageBuffer.isNone)
  { diffs := List.insertionSort (sortLe localeCompare) diffs
    added := List.insertionSort (sortLe localeCompare) added
    removed := List.insertionSort (sortLe localeCompare) removed
    unchanged := List.insertionSort (sortLe localeCompare) unchanged
    testCases := testCases }

/-- The cleanup pass of `getBrowserFileName_`: lowercase, then keep only
word characters and dots. -/
def browserNameCleanup (l : List Char) : String :=
  String.mk ((l.map Char.toLower).filter (fun c => isWordChar c || c == '.'))

/-- A baseline source where none of the three arms resolves. -/
def dsUnresolvable : DiffSource :=
  { publicUrl := none, localFilePath := none, gitRevision := none }

/-! ### Concrete fixtures used by witnesses and counterexamples -/

/-- A one-page baseline: `a.html` with a single chrome screenshot. -/
def oldJsonDataC4 : SnapshotSuite :=
  [("a.html", { publicUrl := some "pold", screenshots := [("chrome", some "old.png")] })]

/-- A report entry recording a diff for `(a.html, chrome)` whose
actual-image location is `new.png`. -/
def diffC4 : ImageDiffJson :=
  { htmlFilePath := "a.html"
    goldenPageUrl := some "pold"
    snapshotPageUrl := some "pnew"
    userAgentAlias := "chrome"
    expectedImageUrl := some "old.png"
    actualImageUrl := some "new.png"
    diffImageBuffer := none
    diffImageUrl := some "diff.png" }

/-- A report with exactly that one diff, whose test cases rebuild `a.html`
with the new chrome screenshot `new.png` and the new page URL `pnew`. -/
def reportC4 : ReportSuiteJson :=
  { diffs := [diffC4]
    added := []
    removed := []
    unchanged := []
    testCases := [{ destinationRelativeFilePath := "a.html"
                    publicUrl := "pnew"
                    screenshotImageFiles := [{ userAgentAlias := "chrome"
                                               publicUrl := "new.png" }] }] }

/-- A report entry recording the removal of `(a.html, chrome)` — the only
screenshot of the page in the baseline. -/
def removedC1 : ImageDiffJson :=
  { htmlFilePath := "a.html"
    goldenPageUrl := some "pold"
    snapshotPageUrl := none
    userAgentAlias := "chrome"
    expectedImageUrl := some "old.png"
    actualImageUrl := none
    diffImageBuffer := none
    diffImageUrl := none }

/-- A report with exactly that one removal. -/
def reportC1 : ReportSuiteJson :=
  { diffs := [], added := [], removed := [removedC1], unchanged := [], testCases := [] }

/-- A report entry recording an added screenshot `(a.html, firefox)` whose
actual-image location is `ff.png`. -/
def addedC2 : ImageDiffJson :=
  { htmlFilePath := "a.html"
    goldenPageUrl := none
    snapshotPageUrl := some "pnew"
    userAgentAlias := "firefox"
    expectedImageUrl := none
    actualImageUrl := some "ff.png"
    diffImageBuffer := none
    diffImageUrl := none }

/-- A report with one diff (`chrome`) and one added entry (`firefox`) for
`a.html`. -/
def reportC2 : ReportSuiteJson :=
  { diffs := [diffC4]
    added := [addedC2]
    removed := []
    unchanged := []
    testCases := reportC4.testCases }

/-- A comparator collaborator reporting mismatch 1 percent with diff image
bytes `[7]` for every pair of images. -/
def resembleOne : ResembleFn :=
  fun _ _ => { rawMisMatchPercentage := 1, buffer := [7] }

/-- A locale comparator that reports every pair of strings as equal. -/
def lcZero : LocaleCompareFn := fun _ _ => 0

/-- The spec's worked example baseline: `a.html` with one chrome
screenshot. -/
def baselineA : SnapshotSuite :=
  [("a.html", { publicUrl := some "u1", screenshots := [("chrome", some "imgA")] })]

/-- The spec's worked example actual suite: `a.html` with chrome and
firefox screenshots. -/
def actualA : SnapshotSuite :=
  [("a.html", { publicUrl := some "u2",
                screenshots := [("chrome", some "imgB"), ("firefox", some "imgC")] })]

/-- The comparison record `compareAllPages resembleOne` produces for
`(a.html, chrome)` on `actualA` vs `baselineA`. -/
def rC6 : ImageDiffJson :=
  { htmlFilePath := "a.html"
    goldenPageUrl := some "u1"
    snapshotPageUrl := some "u2"
    userAgentAlias := "chrome"
    expectedImageUrl := some "imgA"
    actualImageUrl := some "imgB"
    diffImageBuffer := some [7]
    diffImageUrl := none }

/-! ### Derived notions used to state the partition properties -/

/-- How many records of a bucket carry the `(pageId, browserId)` pair
`(p, b)`. -/
def countPair (l : List ImageDiffJson) (p b : String) : Nat :=
  l.countP (fun r => r.htmlFilePath == p && r.userAgentAlias == b)

/-- Whether the `(page, browser)` pair `(p, b)` is present in a manifest:
page entry exists and its screenshots object has the key. -/
def hasPairB (s : SnapshotSuite) (p b : String) : Bool :=
  match objGet s p with
  | some page => (objGet page.screenshots b).isSome
  | none => false

/-- Keys of a JSON object are unique. -/
def nodupKeys (l : List (String × α)) : Prop :=
  (l.map Prod.fst).Nodup

instance (l : List (String × α)) : Decidable (nodupKeys l) := by
  unfold nodupKeys
  infer_instance

/-- A well-formed manifest: unique page keys, and unique screenshot keys in
every page. -/
def suiteWF (s : SnapshotSuite) : Prop :=
  nodupKeys s ∧ ∀ e ∈ s, nodupKeys e.2.screenshots

instance (s : SnapshotSuite) : Decidable (suiteWF s) := by
  unfold suiteWF
  infer_instance

/-- Every screenshot URL of the manifest is JavaScript-truthy (a nonempty
string). -/
def suiteTruthy (s : SnapshotSuite) : Prop :=
  ∀ e ∈ s, ∀ sc ∈ e.2.screenshots, jsTruthy sc.2 = true

instance (s : SnapshotSuite) : Decidable (suiteTruthy s) := by
  unfold suiteTruthy
  infer_instance

/-- An actual suite whose chrome screenshot URL is the empty string (falsy
but present). -/
def actualC5 : SnapshotSuite :=
  [("a.html", { publicUrl := some "u2", screenshots := [("chrome", some "")] })]

/-- The test cases of a run that re-captures `a.html` with a new chrome
screenshot. -/
def tcsC3 : List UploadableTestCase :=
  [{ destinationRelativeFilePath := "a.html"
     publicUrl := "pnew"
     screenshotImageFiles := [{ userAgentAlias := "chrome", publicUrl := "new.png" }] }]

/-- The classified report of that run against `baselineA` (the comparator
reports a mismatch, so `(a.html, chrome)` is a diff). -/
def reportC3val : ReportSuiteJson :=
  compareAllPages resembleOne lcZero tcsC3 (fromTestCases tcsC3) baselineA

/-! ### Basic lemmas about the JSON-object model -/

theorem objGet_objSet (l : List (String × α)) (k k' : String) (v : α) :
    objGet (objSet l k v) k' = if k = k' then some v else objGet l k' := by
  induction l with
  | nil => by_cases h : k = k' <;> simp [objSet, objGet, h]
  | cons e t ih =>
    obtain ⟨k1, v1⟩ := e
    by_cases h1 : k1 = k
    · subst h1
      by_cases h2 : k1 = k' <;> simp [objSet, objGet, h2]
    · simp only [objSet, if_neg h1]
      by_cases h2 : k1 = k'
      · subst h2
        have hne : ¬ k = k1 := fun h => h1 h.symm
        simp [objGet, hne]
      · simp [objGet, h2, ih]

theorem objGet_eq_none_of_not_mem_keys {l : List (String × α)} {k : String} :
    k ∉ l.map Prod.fst → objGet l k = none := by
  induction l with
  | nil => intro _; rfl
  | cons e t ih =>
    intro h
    simp only [List.map_cons, List.mem_cons] at h
    push_neg at h
    simp [objGet, Ne.symm h.1, ih h.2]

theorem objGet_isSome_iff_mem_keys {l : List (String × α)} {k : String} :
    (objGet l k).isSome = true ↔ k ∈ l.map Prod.fst := by
  induction l with
  | nil => simp [objGet]
  | cons e t ih =>
    by_cases h : e.1 = k
    · subst h
      simp [objGet]
    · simp [objGet, h, ih, Ne.symm h]

theorem objGet_mem {l : List (String × α)} {k : String} {v : α} :
    objGet l k = some v → (k, v) ∈ l := by
  induction l with
  | nil => intro h; simp [objGet] at h
  | cons e t ih =>
    intro h
    obtain ⟨k1, v1⟩ := e
    by_cases he : k1 = k
    · subst he
      have h' : v1 = v := by simpa [objGet] using h
      subst h'
      exact List.mem_cons_self _ _
    · simp only [objGet, if_neg he] at h
      exact List.mem_cons_of_mem _ (ih h)

theorem objGet_of_mem_nodup {l : List (String × α)} {k : String} {v : α} :
    (l.map Prod.fst).Nodup → (k, v) ∈ l → objGet l k = some v := by
  induction l with
  | nil => intro _ h; simp at h
  | cons e t ih =>
    intro hnd h
    simp only [List.map_cons, List.nodup_cons] at hnd
    rcases List.mem_cons.1 h with h | h
    · subst h
      simp [objGet]
    · have hk : e.1 ≠ k := by
        intro he
        exact hnd.1 (he ▸ (List.mem_map.2 ⟨(k, v), h, rfl⟩))
      simp [objGet, hk, ih hnd.2 h]

theorem mem_objSet_elim {l : List (String × α)} {k k' : String} {v v' : α} :
    (k', v') ∈ objSet l k v → (k', v') = (k, v) ∨ (k', v') ∈ l := by
  induction l with
  | nil => intro h; simpa [objSet] using h
  | cons e t ih =>
    intro h
    obtain ⟨k1, v1⟩ := e
    by_cases he : k1 = k
    · subst he
      rw [show objSet ((k1, v1) :: t) k1 v = (k1, v) :: t by simp [objSet]] at h
      rcases List.mem_cons.1 h with h | h
      · exact Or.inl h
      · exact Or.inr (List.mem_cons_of_mem _ h)
    · simp only [objSet, if_neg he, List.mem_cons] at h
      rcases h with h | h
      · exact Or.inr (List.mem_cons.2 (Or.inl h))
      · rcases ih h with h | h
        · exact Or.inl h
        · exact Or.inr (List.mem_cons_of_mem _ h)

theorem mem_keys_objSet {l : List (String × α)} {k k' : String} {v : α} :
    k' ∈ (objSet l k v).map Prod.fst ↔ k' = k ∨ k' ∈ l.map Prod.fst := by
  induction l with
  | nil => simp [objSet]
  | cons e t ih =>
    obtain ⟨k1, v1⟩ := e
    by_cases he : k1 = k
    · subst he
      simp [objSet]
    · simp only [objSet, if_neg he, List.map_cons, List.mem_cons, ih]
      tauto

theorem nodup_keys_objSet {l : List (String × α)} {k : String} {v : α} :
    (l.map Prod.fst).Nodup → ((objSet l k v).map Prod.fst).Nodup := by
  induction l with
  | nil => intro _; simp [objSet]
  | cons e t ih =>
    intro hnd
    obtain ⟨k1, v1⟩ := e
    simp only [List.map_cons, List.nodup_cons] at hnd
    by_cases he : k1 = k
    · subst he
      rw [show objSet ((k1, v1) :: t) k1 v = (k1, v) :: t by simp [objSet]]
      simp only [List.map_cons, List.nodup_cons]
      exact hnd
    · simp only [objSet, if_neg he, List.map_cons, List.nodup_cons]
      refine ⟨fun hmem => ?_, ih hnd.2⟩
      rcases mem_keys_objSet.1 hmem with h | h
      · exact he h
      · exact hnd.1 h

theorem map_fst_objSet_of_mem {l : List (String × α)} {k : String} (v : α) :
    k ∈ l.map Prod.fst → (objSet l k v).map Prod.fst = l.map Prod.fst := by
  induction l with
  | nil => intro h; simp at h
  | cons e t ih =>
    intro h
    obtain ⟨k1, v1⟩ := e
    by_cases he : k1 = k
    · subst he
      simp [objSet]
    · simp only [List.map_cons, List.mem_cons] at h
      rcases h with h | h
      · exact absurd h.symm he
      · simp only [objSet, if_neg he, List.map_cons, ih h]

theorem objGet_objDelete_ne (l : List (String × α)) {k k' : String} (h : k ≠ k') :
    objGet (objDelete l k) k' = objGet l k' := by
  induction l with
  | nil => rfl
  | cons e t ih =>
    obtain ⟨k1, v1⟩ := e
    by_cases he : k1 = k
    · subst he
      have hne : k1 ≠ k' := h
      simp [objDelete, objGet, hne]
    · by_cases he' : k1 = k' <;>
        simp [objDelete, objGet, he, he', ih, Ne.symm h]

theorem objGet_objDelete_self {l : List (String × α)} {k : String} :
    (l.map Prod.fst).Nodup → objGet (objDelete l k) k = none := by
  induction l with
  | nil => intro _; rfl
  | cons e t ih =>
    intro hnd
    obtain ⟨k1, v1⟩ := e
    simp only [List.map_cons, List.nodup_cons] at hnd
    by_cases he : k1 = k
    · subst he
      rw [show objDelete ((k1, v1) :: t) k1 = t by simp [objDelete]]
      exact objGet_eq_none_of_not_mem_keys hnd.1
    · simp [objDelete, objGet, he, ih hnd.2]

theorem mem_keys_objDelete {l : List (String × α)} {k k' : String} :
    k' ∈ (objDelete l k).map Prod.fst → k' ∈ l.map Prod.fst := by
  induction l with
  | nil => intro h; simp [objDelete] at h
  | cons e t ih =>
    intro h
    obtain ⟨k1, v1⟩ := e
    by_cases he : k1 = k
    · subst he
      rw [show objDelete ((k1, v1) :: t) k1 = t by simp [objDelete]] at h
      exact List.mem_cons_of_mem _ h
    · simp only [objDelete, if_neg he, List.map_cons, List.mem_cons] at h ⊢
      tauto

theorem nodup_keys_objDelete {l : List (String × α)} {k : String} :
    (l.map Prod.fst).Nodup → ((objDelete l k).map Prod.fst).Nodup := by
  induction l with
  | nil => intro _; simp [objDelete]
  | cons e t ih =>
    intro hnd
    obtain ⟨k1, v1⟩ := e
    simp only [List.map_cons, List.nodup_cons] at hnd
    by_cases he : k1 = k
    · subst he
      simpa [objDelete] using hnd.2
    · simp only [objDelete, if_neg he, List.map_cons, List.nodup_cons]
      exact ⟨fun hm => hnd.1 (mem_keys_objDelete hm), ih hnd.2⟩


/-! ### Claim C9: browser file-name derivation -/

theorem takeWhile_append_of_all {q : α → Bool} {l1 l2 : List α}
    (h : ∀ a ∈ l1, q a = true) :
    (l1 ++ l2).takeWhile q = l1 ++ l2.takeWhile q := by
  induction l1 with
  | nil => simp
  | cons a t ih =>
    have ha := h a (List.mem_cons_self a t)
    simp [List.takeWhile_cons, ha, ih (fun x hx => h x (List.mem_cons_of_mem a hx))]

theorem takeWhile_append_drop (q : α → Bool) (l : List α) :
    l.takeWhile q ++ l.drop (l.takeWhile q).length = l := by
  induction l with
  | nil => rfl
  | cons a t ih =>
    cases hq : q a <;> simp [List.takeWhile_cons, hq, ih]

theorem stripMsEdgeVersionSuffix_of_suffix (p d : List Char) (hd : d ≠ [])
    (hall : ∀ c ∈ d, isDigitChar c = true) :
    stripMsEdgeVersionSuffix (p ++ '-' :: 'E' :: d) = p := by
  obtain ⟨c, cs, hcs⟩ : ∃ c cs, d.reverse = c :: cs := by
    cases hr : d.reverse with
    | nil =>
      exfalso
      exact hd (by simpa using congrArg List.reverse hr)
    | cons c cs => exact ⟨c, cs, rfl⟩
  have key : (p ++ '-' :: 'E' :: d).reverse = (c :: cs) ++ 'E' :: '-' :: p.reverse := by
    rw [← hcs]
    simp
  have htake : ((c :: cs) ++ 'E' :: '-' :: p.reverse).takeWhile isDigitChar = c :: cs := by
    rw [takeWhile_append_of_all (fun x hx => hall x (List.mem_reverse.1 (hcs ▸ hx)))]
    simp [List.takeWhile_cons]
    decide
  simp only [stripMsEdgeVersionSuffix, key, htake, List.drop_left]
  simp

theorem stripMsEdgeVersionSuffix_eq_self (os : List Char)
    (h : ¬ ∃ p d, os = p ++ '-' :: 'E' :: d ∧ d ≠ [] ∧ ∀ c ∈ d, isDigitChar c = true) :
    stripMsEdgeVersionSuffix os = os := by
  simp only [stripMsEdgeVersionSuffix]
  split
  · next c cs e dash rest2 heq1 heq2 =>
    rw [if_neg]
    rintro ⟨he, hdash⟩
    subst he
    subst hdash
    apply h
    have hsplit : os.reverse = (c :: cs) ++ 'E' :: '-' :: rest2 := by
      have h2 := heq2
      rw [heq1] at h2
      conv_lhs => rw [← takeWhile_append_drop isDigitChar os.reverse]
      rw [heq1, h2]
    refine ⟨rest2.reverse, (c :: cs).reverse, ?_, by simp, ?_⟩
    · have := congrArg List.reverse hsplit
      simpa using this
    · intro ch hch
      have hmem : ch ∈ os.reverse.takeWhile isDigitChar := by
        rw [heq1]
        exact List.mem_reverse.1 hch
      exact List.mem_takeWhile_imp hmem
  · rfl

/-- C9: for every OS API name and browser API name, the derived browser
identifier strips a trailing `-E<digits>` suffix from the OS name, joins OS
and browser names with an underscore, lowercases, and removes every
character that is not a word character or a dot; in particular OS
`"Win10-E17"` with browser `"chrome"` derives `"win10_chrome"`. -/
theorem getBrowserFileName_derivation (osApiName browserApiName : String) :
    (∀ p d, osApiName.toList = p ++ '-' :: 'E' :: d → d ≠ [] →
        (∀ c ∈ d, isDigitChar c = true) →
        getBrowserFileName_ osApiName browserApiName =
          browserNameCleanup (p ++ '_' :: browserApiName.toList)) ∧
    ((¬ ∃ p d, osApiName.toList = p ++ '-' :: 'E' :: d ∧ d ≠ [] ∧
          ∀ c ∈ d, isDigitChar c = true) →
        getBrowserFileName_ osApiName browserApiName =
          browserNameCleanup (osApiName.toList ++ '_' :: browserApiName.toList)) ∧
    getBrowserFileName_ "Win10-E17" "chrome" = "win10_chrome" := by
  refine ⟨?_, ?_, by decide⟩
  · intro p d hdec hd hall
    rw [getBrowserFileName_, hdec, stripMsEdgeVersionSuffix_of_suffix p d hd hall]
    rfl
  · intro hno
    rw [getBrowserFileName_, stripMsEdgeVersionSuffix_eq_self _ hno]
    rfl

/-- Witness for C9 at the concrete input from the spec: `"Win10-E17"` has
the suffix decomposition with digits `"17"`, and the theorem yields the
derived key. -/
theorem getBrowserFileName_derivation_witness :
    getBrowserFileName_ "Win10-E17" "chrome" =
      browserNameCleanup ("Win10".toList ++ '_' :: "chrome".toList) :=
  (getBrowserFileName_derivation "Win10-E17" "chrome").1 "Win10".toList ['1', '7']
    (by decide) (by decide) (by decide)

/-! ### Claim C8: baseline source resolution -/

theorem truthyString_eq_none_iff (u : Url) :
    truthyString u = none ↔ jsTruthy u = false := by
  cases u with
  | none => simp [truthyString, jsTruthy]
  | some s => by_cases h : s = "" <;> simp [truthyString, jsTruthy, h]

/-- C8: baseline source resolution tries, in priority order, an explicit
public URL, then a local file path, then a (revision, path) pair resolved
through the git collaborator; when none of the three resolves, loading
fails with a configuration error whose message names the unresolvable
`--mdc-diff-base` input. -/
theorem fetchGoldenJsonString_resolution_order (request readFile : String → String)
    (getFileAtRevision : String → String → String) (ds : DiffSource) (raw : String) :
    (∀ u, ds.publicUrl = some u → u ≠ "" →
        fetchGoldenJsonString_ request readFile getFileAtRevision ds raw =
          Except.ok (request u)) ∧
    (jsTruthy ds.publicUrl = false → ∀ f, ds.localFilePath = some f → f ≠ "" →
        fetchGoldenJsonString_ request readFile getFileAtRevision ds raw =
          Except.ok (readFile f)) ∧
    (jsTruthy ds.publicUrl = false → jsTruthy ds.localFilePath = false →
        ∀ rev, ds.gitRevision = some rev →
        fetchGoldenJsonString_ request readFile getFileAtRevision ds raw =
          Except.ok (getFileAtRevision rev.snapshotFilePath rev.commit)) ∧
    (jsTruthy ds.publicUrl = false → jsTruthy ds.localFilePath = false →
        ds.gitRevision = none →
        fetchGoldenJsonString_ request readFile getFileAtRevision ds raw =
          Except.error ("Unable to parse '--mdc-diff-base=" ++ raw ++
            "': Expected a URL, local file path, or git ref")) := by
  refine ⟨?_, ?_, ?_, ?_⟩
  · intro u hu hne
    simp [fetchGoldenJsonString_, hu, truthyString, hne]
  · intro hpub f hf hne
    rw [fetchGoldenJsonString_]
    rw [(truthyString_eq_none_iff _).2 hpub]
    simp [hf, truthyString, hne]
  · intro hpub hloc rev hrev
    rw [fetchGoldenJsonString_]
    rw [(truthyString_eq_none_iff _).2 hpub, (truthyString_eq_none_iff _).2 hloc]
    simp [hrev]
  · intro hpub hloc hgit
    rw [fetchGoldenJsonString_]
    rw [(truthyString_eq_none_iff _).2 hpub, (truthyString_eq_none_iff _).2 hloc]
    simp [hgit]

/-- Witness for C8: at a fully unresolvable source the loader fails with
the configuration error echoing the raw input back. -/
theorem fetchGoldenJsonString_resolution_witness :
    fetchGoldenJsonString_ (fun _ => "") (fun _ => "") (fun _ _ => "")
      dsUnresolvable "origin/master" =
      Except.error ("Unable to parse '--mdc-diff-base=" ++ "origin/master" ++
        "': Expected a URL, local file path, or git ref") :=
  (fetchGoldenJsonString_resolution_order (fun _ => "") (fun _ => "") (fun _ _ => "")
    dsUnresolvable "origin/master").2.2.2 rfl rfl rfl

/-! ### Claim C10: the full-approval merge keeps only current-run pages -/

theorem mem_keys_fromTestCases_aux (tcs : List UploadableTestCase) (init : SnapshotSuite)
    (p : String) :
    (p ∈ ((tcs.foldl
        (fun jsonData testCase =>
          objSet jsonData testCase.destinationRelativeFilePath (testCasePage testCase))
        init).map Prod.fst)) ↔
      p ∈ init.map Prod.fst ∨ ∃ tc ∈ tcs, tc.destinationRelativeFilePath = p := by
  induction tcs generalizing init with
  | nil => simp
  | cons tc rest ih =>
    simp only [List.foldl_cons, ih, mem_keys_objSet, List.mem_cons]
    constructor
    · rintro (⟨h | h⟩ | h)
      · exact Or.inr ⟨tc, Or.inl rfl, h.symm⟩
      · exact Or.inl h
      · obtain ⟨tc', htc', hp⟩ := h
        exact Or.inr ⟨tc', Or.inr htc', hp⟩
    · rintro (h | ⟨tc', htc' | htc', hp⟩)
      · exact Or.inl (Or.inr h)
      · subst htc'
        exact Or.inl (Or.inl hp.symm)
      · exact Or.inr ⟨tc', htc', hp⟩

theorem mem_keys_fromTestCases (tcs : List UploadableTestCase) (p : String) :
    p ∈ (fromTestCases tcs).map Prod.fst ↔
      ∃ tc ∈ tcs, tc.destinationRelativeFilePath = p := by
  have := mem_keys_fromTestCases_aux tcs [] p
  simpa [fromTestCases] using this

theorem map_fst_updateAllScreenshots (reportJson : ReportSuiteJson)
    (oldJsonData : SnapshotSuite) :
    (updateAllScreenshots_ reportJson oldJsonData).map Prod.fst =
      (fromTestCases reportJson.testCases).map Prod.fst := by
  unfold updateAllScreenshots_
  rw [List.map_map]
  apply List.map_congr_left
  intro e _
  cases h : objGet oldJsonData e.1 <;> simp [h]

/-- C10: the manifest produced by the unfiltered full-approval merge has a
page entry for `p` exactly when some test case of the current run has
destination path `p`; in particular every baseline page with no
corresponding test case is dropped from the merged baseline. -/
theorem updateAllScreenshots_drops_missing_pages (reportJson : ReportSuiteJson)
    (oldJsonData : SnapshotSuite) (p : String) :
    (objGet (updateAllScreenshots_ reportJson oldJsonData) p).isSome = true ↔
      ∃ tc ∈ reportJson.testCases, tc.destinationRelativeFilePath = p := by
  rw [objGet_isSome_iff_mem_keys, map_fst_updateAllScreenshots,
    mem_keys_fromTestCases]



/-! ### Claim C4: what the full-approval merge actually writes -/

theorem objGet_map_entry (l : List (String × β)) (F : String × β → γ) (k : String) :
    objGet (l.map (fun e => (e.1, F e))) k = (objGet l k).map (fun v => F (k, v)) := by
  induction l with
  | nil => rfl
  | cons e t ih =>
    by_cases he : e.1 = k
    · subst he
      simp [objGet]
    · simp [objGet, he, ih]

theorem jsStrictEq_browserKeyProp (d : ImageDiffJson) (s : String) :
    jsStrictEq (browserKeyProp d) s = false := rfl

/-- The `diffs.find` of `updateAllScreenshots_` never finds a match: report
entries have no `browserKey` property, and `undefined === browserKey` is
false. -/
theorem screenshotHasDiff_false (diffs : List ImageDiffJson) (htmlFilePath browserKey : String) :
    (diffs.any (fun diff =>
      diff.htmlFilePath == htmlFilePath && jsStrictEq (browserKeyProp diff) browserKey)) =
      false := by
  simp [jsStrictEq_browserKeyProp]

/-- C4 (amended): in the unfiltered full-approval merge, for every page
present in both the baseline and the rebuilt manifest, every screenshot key
whose baseline URL is truthy keeps the baseline URL — including keys with
recorded diffs, because the diff lookup consults the absent `browserKey`
property and never matches — every other key keeps the rebuilt manifest's
value, and the page-level `publicUrl` is always restored from the
baseline. -/
theorem updateAllScreenshots_baseline_authoritative (reportJson : ReportSuiteJson)
    (oldJsonData : SnapshotSuite) (htmlFilePath : String) (oldPage newPage : SnapshotPage)
    (hold : objGet oldJsonData htmlFilePath = some oldPage)
    (hnew : objGet (fromTestCases reportJson.testCases) htmlFilePath = some newPage) :
    objGet (updateAllScreenshots_ reportJson oldJsonData) htmlFilePath =
      some { publicUrl := oldPage.publicUrl
             screenshots := newPage.screenshots.map (fun s =>
               match objGet oldPage.screenshots s.1 with
               | some oldUrl => if jsTruthy oldUrl then (s.1, oldUrl) else s
               | none => s) } := by
  have hfun : (fun (entry : String × SnapshotPage) =>
      match objGet oldJsonData entry.1 with
      | none => entry
      | some oldPage =>
        let screenshotHasDiff := fun (browserKey : String) =>
          reportJson.diffs.any (fun diff =>
            diff.htmlFilePath == entry.1 && jsStrictEq (browserKeyProp diff) browserKey)
        let screenshots := entry.2.screenshots.map (fun s =>
          match objGet oldPage.screenshots s.1 with
          | some oldUrl =>
            if jsTruthy oldUrl && !(screenshotHasDiff s.1) then (s.1, oldUrl) else s
          | none => s)
        let pageHasDiffs := entry.2.screenshots.any (fun s => screenshotHasDiff s.1)
        (entry.1,
          { publicUrl := if pageHasDiffs then entry.2.publicUrl else oldPage.publicUrl
            screenshots := screenshots })) =
      (fun (entry : String × SnapshotPage) => (entry.1,
        match objGet oldJsonData entry.1 with
        | none => entry.2
        | some oldPage =>
          { publicUrl := oldPage.publicUrl
            screenshots := entry.2.screenshots.map (fun s =>
              match objGet oldPage.screenshots s.1 with
              | some oldUrl => if jsTruthy oldUrl then (s.1, oldUrl) else s
              | none => s) })) := by
    funext entry
    cases h : objGet oldJsonData entry.1 with
    | none => simp [h]
    | some oldPage' =>
      simp only [h, screenshotHasDiff_false, Bool.not_false, Bool.and_true,
        Bool.false_eq_true, if_false, ite_false]
      simp
  unfold updateAllScreenshots_
  rw [hfun]
  rw [objGet_map_entry, hnew]
  simp only [Option.map_some', hold]

/-- Witness for C4 (amended) at the concrete fixture: the merged page keeps
the baseline URL for `chrome` even though a diff was recorded for it, and
keeps the baseline `publicUrl`. -/
theorem updateAllScreenshots_baseline_authoritative_witness :
    objGet (updateAllScreenshots_ reportC4 oldJsonDataC4) "a.html" =
      some { publicUrl := (some "pold" : Url)
             screenshots := [("chrome", (some "old.png" : Url))] } := by
  have h := updateAllScreenshots_baseline_authoritative reportC4 oldJsonDataC4 "a.html"
    { publicUrl := some "pold", screenshots := [("chrome", some "old.png")] }
    { publicUrl := some "pnew", screenshots := [("chrome", some "new.png")] }
    (by decide) (by decide)
  exact h.trans (by decide)

/-- Counterexample for C4 as stated: at the fixture report, `(a.html,
chrome)` has a recorded diff whose actual-image location is `new.png`, yet
the merged baseline keeps `old.png`, and the page keeps the baseline
`publicUrl` `pold` although the page had a diff. -/
theorem updateAllScreenshots_diff_value_cex :
    objGet (updateAllScreenshots_ reportC4 oldJsonDataC4) "a.html" =
      some { publicUrl := (some "pold" : Url)
             screenshots := [("chrome", (some "old.png" : Url))] } ∧
    diffC4 ∈ reportC4.diffs ∧
    diffC4.actualImageUrl = some "new.png" ∧
    (some "old.png" : Url) ≠ diffC4.actualImageUrl := by
  refine ⟨by decide, by decide, by decide, by decide⟩



/-! ### Claims C1 and C2: evaluations of the filtered merge at failing inputs -/

/-- C1 (code bug): approving the removal of a page's last screenshot leaves
the page entry in the baseline with an empty screenshot map — the
`screenshots.length === 0` check reads an absent `length` property of a
plain object and never fires — where the code's own check evidently intends
to delete the page entry. -/
theorem writeFilteredToDisk_keeps_empty_page_entry :
    writeFilteredToDisk_ reportC1 [] [] [("a.html", "chrome")] oldJsonDataC4 =
      some [("a.html", { publicUrl := some "pold", screenshots := [] })] := by
  decide

/-- C2 (code bug): the filtered merge writes each approved entry's
`snapshotPageUrl` (the page URL) into the screenshots map — for both the
approved diff and the approved add — instead of the entry's actual-image
location (`actualImageUrl`). -/
theorem writeFilteredToDisk_writes_snapshotPageUrl :
    writeFilteredToDisk_ reportC2 [("a.html", "chrome")] [("a.html", "firefox")] []
        oldJsonDataC4 =
      some [("a.html",
        { publicUrl := some "pold"
          screenshots := [("chrome", some "pnew"), ("firefox", some "pnew")] })] ∧
    some "pnew" = diffC4.snapshotPageUrl ∧
    some "pnew" ≠ diffC4.actualImageUrl ∧
    some "pnew" = addedC2.snapshotPageUrl ∧
    some "pnew" ≠ addedC2.actualImageUrl := by
  refine ⟨by decide, by decide, by decide, by decide, by decide⟩



/-! ### Claim C7: the four report buckets are sorted -/

theorem compareDiffsForSorting_le_iff (lc : LocaleCompareFn) (a b : ImageDiffJson) :
    compareDiffsForSorting lc a b ≤ 0 ↔
      (lc a.htmlFilePath b.htmlFilePath = 0 ∧ lc a.userAgentAlias b.userAgentAlias ≤ 0) ∨
      (lc a.htmlFilePath b.htmlFilePath ≠ 0 ∧ lc a.htmlFilePath b.htmlFilePath ≤ 0) := by
  unfold compareDiffsForSorting
  by_cases h : lc a.htmlFilePath b.htmlFilePath = 0 <;> simp [h]

/-- Totality of the report ordering, from sign-consistency of the locale
comparator. -/
theorem sortLe_total (lc : LocaleCompareFn)
    (hsign : ∀ x y, lc x y < 0 ↔ 0 < lc y x) (a b : ImageDiffJson) :
    sortLe lc a b ∨ sortLe lc b a := by
  rw [sortLe, sortLe, compareDiffsForSorting_le_iff, compareDiffsForSorting_le_iff]
  have s1 := hsign a.htmlFilePath b.htmlFilePath
  have s2 := hsign b.htmlFilePath a.htmlFilePath
  have s3 := hsign a.userAgentAlias b.userAgentAlias
  have s4 := hsign b.userAgentAlias a.userAgentAlias
  omega

/-- Transitivity of the report ordering, from sign-consistency and
transitivity of the locale comparator. -/
theorem sortLe_trans (lc : LocaleCompareFn)
    (hsign : ∀ x y, lc x y < 0 ↔ 0 < lc y x)
    (htrans : ∀ x y z, lc x y ≤ 0 → lc y z ≤ 0 → lc x z ≤ 0)
    (a b c : ImageDiffJson) :
    sortLe lc a b → sortLe lc b c → sortLe lc a c := by
  intro hab hbc
  rw [sortLe, compareDiffsForSorting_le_iff] at hab hbc ⊢
  have h1 := htrans a.htmlFilePath b.htmlFilePath c.htmlFilePath
  have h2 := htrans c.htmlFilePath a.htmlFilePath b.htmlFilePath
  have h3 := htrans b.htmlFilePath c.htmlFilePath a.htmlFilePath
  have h4 := htrans a.userAgentAlias b.userAgentAlias c.userAgentAlias
  have s1 := hsign a.htmlFilePath b.htmlFilePath
  have s2 := hsign b.htmlFilePath a.htmlFilePath
  have s3 := hsign b.htmlFilePath c.htmlFilePath
  have s4 := hsign c.htmlFilePath b.htmlFilePath
  have s5 := hsign a.htmlFilePath c.htmlFilePath
  have s6 := hsign c.htmlFilePath a.htmlFilePath
  omega

/-- C7: for a locale comparator with consistent signs and transitive
non-positivity (as `localeCompare` with a fixed locale provides), every one
of the four report buckets is sorted ascending by (pageId, browserId)
under the `compareDiffsForSorting` ordering. -/
theorem compareAllPages_buckets_sorted (computeDiff : ResembleFn) (lc : LocaleCompareFn)
    (hsign : ∀ x y, lc x y < 0 ↔ 0 < lc y x)
    (htrans : ∀ x y z, lc x y ≤ 0 → lc y z ≤ 0 → lc x z ≤ 0)
    (testCases : List UploadableTestCase) (actualSuite expectedSuite : SnapshotSuite) :
    List.Sorted (sortLe lc)
        (compareAllPages computeDiff lc testCases actualSuite expectedSuite).diffs ∧
    List.Sorted (sortLe lc)
        (compareAllPages computeDiff lc testCases actualSuite expectedSuite).added ∧
    List.Sorted (sortLe lc)
        (compareAllPages computeDiff lc testCases actualSuite expectedSuite).removed ∧
    List.Sorted (sortLe lc)
        (compareAllPages computeDiff lc testCases actualSuite expectedSuite).unchanged := by
  haveI : IsTotal ImageDiffJson (sortLe lc) := ⟨sortLe_total lc hsign⟩
  haveI : IsTrans ImageDiffJson (sortLe lc) := ⟨sortLe_trans lc hsign htrans⟩
  simp only [compareAllPages]
  exact ⟨List.sorted_insertionSort _ _, List.sorted_insertionSort _ _,
    List.sorted_insertionSort _ _, List.sorted_insertionSort _ _⟩

/-- Witness for C7 at the constant-equal locale comparator and the worked
example suites. -/
theorem compareAllPages_buckets_sorted_witness :
    List.Sorted (sortLe lcZero)
        (compareAllPages resembleOne lcZero [] actualA baselineA).diffs ∧
    List.Sorted (sortLe lcZero)
        (compareAllPages resembleOne lcZero [] actualA baselineA).added ∧
    List.Sorted (sortLe lcZero)
        (compareAllPages resembleOne lcZero [] actualA baselineA).removed ∧
    List.Sorted (sortLe lcZero)
        (compareAllPages resembleOne lcZero [] actualA baselineA).unchanged :=
  compareAllPages_buckets_sorted resembleOne lcZero (by simp [lcZero])
    (by simp [lcZero]) [] actualA baselineA

/-! ### Claim C6: the 0.01 mismatch threshold decides diff vs unchanged -/

theorem diffImageBuffer_of_mem_results (computeDiff : ResembleFn)
    (actualSuite expectedSuite : SnapshotSuite) (r : ImageDiffJson) :
    r ∈ pageComparisonResults computeDiff actualSuite expectedSuite →
      r.diffImageBuffer = compareOneImage_ computeDiff r.actualImageUrl r.expectedImageUrl := by
  intro h
  rw [pageComparisonResults, List.mem_flatMap] at h
  obtain ⟨entry, _, hr⟩ := h
  rcases hE : objGet expectedSuite entry.1 with _ | expectedPage
  · rw [hE] at hr
    simp at hr
  · rw [hE] at hr
    simp only [compareOnePage_] at hr
    rw [List.mem_filterMap] at hr
    obtain ⟨s, _, hs⟩ := hr
    rcases hsc : objGet expectedPage.screenshots s.1 with _ | expectedImageUrl
    · rw [hsc] at hs
      simp at hs
    · rw [hsc] at hs
      dsimp only at hs
      by_cases ht : jsTruthy expectedImageUrl = true
      · rw [if_pos ht] at hs
        injection hs with hs'
        subst hs'
        rfl
      · rw [if_neg ht] at hs
        simp at hs

/-- C6: in every classified report, each record in the diffs bucket has a
comparator mismatch percentage not below the fixed 0.01 threshold and
retains the comparator's diff image, and each record in the unchanged
bucket has mismatch percentage below 0.01 and retains no diff image. -/
theorem compareAllPages_threshold_classification (computeDiff : ResembleFn)
    (lc : LocaleCompareFn) (testCases : List UploadableTestCase)
    (actualSuite expectedSuite : SnapshotSuite) :
    (∀ r ∈ (compareAllPages computeDiff lc testCases actualSuite expectedSuite).diffs,
        ¬ (computeDiff r.actualImageUrl r.expectedImageUrl).rawMisMatchPercentage < 0.01 ∧
        r.diffImageBuffer =
          some (computeDiff r.actualImageUrl r.expectedImageUrl).buffer) ∧
    (∀ r ∈ (compareAllPages computeDiff lc testCases actualSuite expectedSuite).unchanged,
        (computeDiff r.actualImageUrl r.expectedImageUrl).rawMisMatchPercentage < 0.01 ∧
        r.diffImageBuffer = none) := by
  constructor
  · intro r hr
    simp only [compareAllPages] at hr
    have hr' := (List.perm_insertionSort _ _).mem_iff.1 hr
    have hmem := (List.mem_filter.1 hr').1
    have hSome := (List.mem_filter.1 hr').2
    have hbuf := diffImageBuffer_of_mem_results computeDiff actualSuite expectedSuite r hmem
    rw [compareOneImage_] at hbuf
    by_cases hlt :
        (computeDiff r.actualImageUrl r.expectedImageUrl).rawMisMatchPercentage < 0.01
    · rw [if_pos hlt] at hbuf
      rw [hbuf] at hSome
      simp at hSome
    · rw [if_neg hlt] at hbuf
      exact ⟨hlt, hbuf⟩
  · intro r hr
    simp only [compareAllPages] at hr
    have hr' := (List.perm_insertionSort _ _).mem_iff.1 hr
    have hmem := (List.mem_filter.1 hr').1
    have hNone := (List.mem_filter.1 hr').2
    have hbuf := diffImageBuffer_of_mem_results computeDiff actualSuite expectedSuite r hmem
    rw [compareOneImage_] at hbuf
    by_cases hlt :
        (computeDiff r.actualImageUrl r.expectedImageUrl).rawMisMatchPercentage < 0.01
    · rw [if_pos hlt] at hbuf
      exact ⟨hlt, hbuf⟩
    · rw [if_neg hlt] at hbuf
      rw [hbuf] at hNone
      simp at hNone

/-- Witness for C6: the `(a.html, chrome)` record of the worked example
lands in the diffs bucket (the comparator reports 1 percent mismatch) and
retains the diff image `[7]`. -/
theorem compareAllPages_threshold_witness :
    ¬ (resembleOne rC6.actualImageUrl rC6.expectedImageUrl).rawMisMatchPercentage < 0.01 ∧
    rC6.diffImageBuffer = some (resembleOne rC6.actualImageUrl rC6.expectedImageUrl).buffer :=
  (compareAllPages_threshold_classification resembleOne lcZero [] actualA baselineA).1 rC6
    (by norm_num [compareAllPages, pageComparisonResults, compareOnePage_, compareOneImage_,
      resembleOne, lcZero, actualA, baselineA, objGet, jsTruthy, sortLe,
      compareDiffsForSorting, List.insertionSort, List.orderedInsert, rC6,
      getAdded_, getRemoved_, getAddedActualScreenshotsAsDiffObjects_,
      getRemovedExpectedScreenshotsAsDiffObjects_, jsTruthyProp])



/-! ### Claim C5: counting machinery for the partition property -/

theorem countPair_perm {l1 l2 : List ImageDiffJson} (h : l1.Perm l2) (p b : String) :
    countPair l1 p b = countPair l2 p b :=
  h.countP_eq _

theorem countPair_append (l1 l2 : List ImageDiffJson) (p b : String) :
    countPair (l1 ++ l2) p b = countPair l1 p b + countPair l2 p b :=
  List.countP_append _ _ _

theorem countPair_eq_zero_of_path {q p b : String} {l : List ImageDiffJson} (hq : q ≠ p)
    (h : ∀ r ∈ l, r.htmlFilePath = q) : countPair l p b = 0 := by
  rw [countPair, List.countP_eq_zero]
  intro r hr
  have hr' := h r hr
  simp [hr', hq]

theorem countPair_filterMap_zero {p b : String} {sc : List (String × Url)}
    {body : String × Url → Option ImageDiffJson}
    (hb : b ∉ sc.map Prod.fst)
    (hbody : ∀ s r, body s = some r → r.userAgentAlias = s.1) :
    countPair (sc.filterMap body) p b = 0 := by
  rw [countPair, List.countP_eq_zero]
  intro r hr
  obtain ⟨s, hs, hsr⟩ := List.mem_filterMap.1 hr
  have halias := hbody s r hsr
  have hmem : s.1 ∈ sc.map Prod.fst := List.mem_map.2 ⟨s, hs, rfl⟩
  have hne : s.1 ≠ b := fun h => hb (h ▸ hmem)
  simp [halias, hne]

theorem countPair_filterMap_of_alias {p b : String} {sc : List (String × Url)}
    {body : String × Url → Option ImageDiffJson}
    (hnd : nodupKeys sc)
    (hbody : ∀ s r, body s = some r → r.htmlFilePath = p ∧ r.userAgentAlias = s.1) :
    countPair (sc.filterMap body) p b =
      match objGet sc b with
      | some u => match body (b, u) with | some _ => 1 | none => 0
      | none => 0 := by
  induction sc with
  | nil => rfl
  | cons s t ih =>
    obtain ⟨k, u⟩ := s
    have hnd2 : k ∉ t.map Prod.fst ∧ nodupKeys t := by
      simpa [nodupKeys] using hnd
    by_cases hk : k = b
    · subst hk
      cases hb : body (k, u) with
      | none =>
        rw [show objGet ((k, u) :: t) k = some u by simp [objGet]]
        simp only [List.filterMap_cons, hb]
        exact countPair_filterMap_zero hnd2.1 (fun s r h => (hbody s r h).2)
      | some r =>
        rw [show objGet ((k, u) :: t) k = some u by simp [objGet]]
        simp only [List.filterMap_cons, hb]
        have hfields := hbody (k, u) r hb
        have hrest : countPair (t.filterMap body) p k = 0 :=
          countPair_filterMap_zero hnd2.1 (fun s r h => (hbody s r h).2)
        rw [countPair, List.countP_cons]
        rw [countPair] at hrest
        simp [hrest, hfields.1, hfields.2]
    · have hobj : objGet ((k, u) :: t) b = objGet t b := by
        simp [objGet, hk]
      rw [hobj, ← ih hnd2.2]
      cases hb : body (k, u) with
      | none => simp [List.filterMap_cons, hb]
      | some r =>
        have halias := (hbody (k, u) r hb).2
        simp only [List.filterMap_cons, hb, countPair, List.countP_cons]
        have hpred : (r.htmlFilePath == p && r.userAgentAlias == b) = false := by
          simp [halias, hk]
        rw [hpred]
        simp

theorem countPair_flatMap (p b : String) (A : SnapshotSuite)
    (hnd : nodupKeys A)
    (G : String × SnapshotPage → List ImageDiffJson)
    (hpath : ∀ e r, r ∈ G e → r.htmlFilePath = e.1) :
    countPair (A.flatMap G) p b =
      match objGet A p with
      | some pg => countPair (G (p, pg)) p b
      | none => 0 := by
  induction A with
  | nil => rfl
  | cons e t ih =>
    obtain ⟨q, pg⟩ := e
    have hnd2 : q ∉ t.map Prod.fst ∧ nodupKeys t := by
      simpa [nodupKeys] using hnd
    rw [List.flatMap_cons, countPair_append]
    by_cases hq : q = p
    · subst hq
      have htail : countPair (t.flatMap G) q b = 0 := by
        rw [ih hnd2.2, objGet_eq_none_of_not_mem_keys hnd2.1]
      rw [htail, show objGet ((q, pg) :: t) q = some pg by simp [objGet]]
      dsimp only
      omega
    · have hhead : countPair (G (q, pg)) p b = 0 :=
        countPair_eq_zero_of_path hq (fun r hr => hpath (q, pg) r hr)
      rw [hhead, ih hnd2.2, show objGet ((q, pg) :: t) p = objGet t p by simp [objGet, hq]]
      omega

theorem jsTruthyProp_objGet_of_truthy {page : SnapshotPage}
    (ht : ∀ sc ∈ page.screenshots, jsTruthy sc.2 = true) (b : String) :
    jsTruthyProp (objGet page.screenshots b) = (objGet page.screenshots b).isSome := by
  cases h : objGet page.screenshots b with
  | none => rfl
  | some u => simp [jsTruthyProp, ht (b, u) (objGet_mem h)]

theorem countPair_compareOnePage (computeDiff : ResembleFn) (p : String) (gp sp : Url)
    (ap ep : SnapshotPage) (hnd : nodupKeys ap.screenshots) (b : String) :
    countPair (compareOnePage_ computeDiff p gp sp ap ep) p b =
      if (objGet ap.screenshots b).isSome && jsTruthyProp (objGet ep.screenshots b) then 1
      else 0 := by
  have hbody : ∀ (s : String × Url) (r : ImageDiffJson),
      (match objGet ep.screenshots s.1 with
        | none => none
        | some expectedImageUrl =>
          if jsTruthy expectedImageUrl then
            some
              { htmlFilePath := p
                goldenPageUrl := gp
                snapshotPageUrl := sp
                userAgentAlias := s.1
                expectedImageUrl := expectedImageUrl
                actualImageUrl := s.2
                diffImageUrl := none
                diffImageBuffer := compareOneImage_ computeDiff s.2 expectedImageUrl }
          else none) = some r →
      r.htmlFilePath = p ∧ r.userAgentAlias = s.1 := by
    intro s r h
    cases hsc : objGet ep.screenshots s.1 with
    | none => rw [hsc] at h; simp at h
    | some e =>
      rw [hsc] at h
      dsimp only at h
      by_cases ht : jsTruthy e = true
      · rw [if_pos ht] at h
        injection h with h'
        subst h'
        exact ⟨rfl, rfl⟩
      · rw [if_neg ht] at h
        simp at h
  rw [compareOnePage_, countPair_filterMap_of_alias hnd hbody]
  cases ha : objGet ap.screenshots b with
  | none => simp
  | some u =>
    cases he : objGet ep.screenshots b with
    | none => simp [he, jsTruthyProp]
    | some e =>
      by_cases ht : jsTruthy e = true
      · simp [he, ht, jsTruthyProp]
      · simp only [he, Bool.not_eq_true] at ht
        simp [he, ht, jsTruthyProp]



theorem countPair_getAddedActual (expectedPage actualPage : SnapshotPage) (p : String)
    (hnd : nodupKeys actualPage.screenshots) (b : String) :
    countPair (getAddedActualScreenshotsAsDiffObjects_ expectedPage actualPage p) p b =
      if (objGet actualPage.screenshots b).isSome &&
          !(jsTruthyProp (objGet expectedPage.screenshots b)) then 1
      else 0 := by
  have hbody : ∀ (s : String × Url) (r : ImageDiffJson),
      (if jsTruthyProp (objGet expectedPage.screenshots s.1) then none
        else some
          { htmlFilePath := p
            goldenPageUrl := none
            snapshotPageUrl := actualPage.publicUrl
            userAgentAlias := s.1
            actualImageUrl := s.2
            expectedImageUrl := none
            diffImageBuffer := none
            diffImageUrl := none }) = some r →
      r.htmlFilePath = p ∧ r.userAgentAlias = s.1 := by
    intro s r h
    by_cases ht : jsTruthyProp (objGet expectedPage.screenshots s.1) = true
    · rw [if_pos ht] at h
      simp at h
    · rw [if_neg ht] at h
      injection h with h'
      subst h'
      exact ⟨rfl, rfl⟩
  rw [getAddedActualScreenshotsAsDiffObjects_, countPair_filterMap_of_alias hnd hbody]
  cases ha : objGet actualPage.screenshots b with
  | none => simp
  | some u =>
    by_cases ht : jsTruthyProp (objGet expectedPage.screenshots b) = true
    · simp [ht]
    · simp only [Bool.not_eq_true] at ht
      simp [ht]

theorem countPair_getAllActual (actualPage : SnapshotPage) (p : String)
    (hnd : nodupKeys actualPage.screenshots) (b : String) :
    countPair (getAllActualScreenshotsAsDiffObjects_ actualPage p) p b =
      if (objGet actualPage.screenshots b).isSome then 1 else 0 := by
  have hbody : ∀ (s : String × Url) (r : ImageDiffJson),
      (some
        { htmlFilePath := p
          goldenPageUrl := none
          snapshotPageUrl := actualPage.publicUrl
          userAgentAlias := s.1
          actualImageUrl := s.2
          expectedImageUrl := none
          diffImageBuffer := none
          diffImageUrl := none } : Option ImageDiffJson) = some r →
      r.htmlFilePath = p ∧ r.userAgentAlias = s.1 := by
    intro s r h
    injection h with h'
    subst h'
    exact ⟨rfl, rfl⟩
  rw [getAllActualScreenshotsAsDiffObjects_, ← List.filterMap_eq_map]
  simp only [Function.comp_def]
  rw [countPair_filterMap_of_alias hnd hbody]
  cases ha : objGet actualPage.screenshots b with
  | none => simp
  | some u => simp

theorem countPair_getRemovedExpected (expectedPage actualPage : SnapshotPage) (p : String)
    (hnd : nodupKeys expectedPage.screenshots) (b : String) :
    countPair (getRemovedExpectedScreenshotsAsDiffObjects_ expectedPage actualPage p) p b =
      if (objGet expectedPage.screenshots b).isSome &&
          !(jsTruthyProp (objGet actualPage.screenshots b)) then 1
      else 0 := by
  have hbody : ∀ (s : String × Url) (r : ImageDiffJson),
      (if jsTruthyProp (objGet actualPage.screenshots s.1) then none
        else some
          { htmlFilePath := p
            goldenPageUrl := expectedPage.publicUrl
            snapshotPageUrl := none
            userAgentAlias := s.1
            actualImageUrl := none
            expectedImageUrl := s.2
            diffImageBuffer := none
            diffImageUrl := none }) = some r →
      r.htmlFilePath = p ∧ r.userAgentAlias = s.1 := by
    intro s r h
    by_cases ht : jsTruthyProp (objGet actualPage.screenshots s.1) = true
    · rw [if_pos ht] at h
      simp at h
    · rw [if_neg ht] at h
      injection h with h'
      subst h'
      exact ⟨rfl, rfl⟩
  rw [getRemovedExpectedScreenshotsAsDiffObjects_, countPair_filterMap_of_alias hnd hbody]
  cases ha : objGet expectedPage.screenshots b with
  | none => simp
  | some u =>
    by_cases ht : jsTruthyProp (objGet actualPage.screenshots b) = true
    · simp [ht]
    · simp only [Bool.not_eq_true] at ht
      simp [ht]

theorem countPair_getAllExpected (expectedPage : SnapshotPage) (p : String)
    (hnd : nodupKeys expectedPage.screenshots) (b : String) :
    countPair (getAllExpectedScreenshotsAsDiffObjects_ expectedPage p) p b =
      if (objGet expectedPage.screenshots b).isSome then 1 else 0 := by
  have hbody : ∀ (s : String × Url) (r : ImageDiffJson),
      (some
        { htmlFilePath := p
          goldenPageUrl := expectedPage.publicUrl
          snapshotPageUrl := none
          userAgentAlias := s.1
          actualImageUrl := none
          expectedImageUrl := s.2
          diffImageBuffer := none
          diffImageUrl := none } : Option ImageDiffJson) = some r →
      r.htmlFilePath = p ∧ r.userAgentAlias = s.1 := by
    intro s r h
    injection h with h'
    subst h'
    exact ⟨rfl, rfl⟩
  rw [getAllExpectedScreenshotsAsDiffObjects_, ← List.filterMap_eq_map]
  simp only [Function.comp_def]
  rw [countPair_filterMap_of_alias hnd hbody]
  cases ha : objGet expectedPage.screenshots b with
  | none => simp
  | some u => simp



theorem mem_compareOnePage_path (computeDiff : ResembleFn) (q : String) (gp sp : Url)
    (ap ep : SnapshotPage) (r : ImageDiffJson) :
    r ∈ compareOnePage_ computeDiff q gp sp ap ep → r.htmlFilePath = q := by
  intro h
  simp only [compareOnePage_] at h
  obtain ⟨s, _, hs⟩ := List.mem_filterMap.1 h
  cases hsc : objGet ep.screenshots s.1 with
  | none => rw [hsc] at hs; simp at hs
  | some e =>
    rw [hsc] at hs
    dsimp only at hs
    by_cases ht : jsTruthy e = true
    · rw [if_pos ht] at hs
      injection hs with hs'
      subst hs'
      rfl
    · rw [if_neg ht] at hs
      simp at hs

theorem mem_getAddedActual_path (ep ap : SnapshotPage) (q : String) (r : ImageDiffJson) :
    r ∈ getAddedActualScreenshotsAsDiffObjects_ ep ap q → r.htmlFilePath = q := by
  intro h
  simp only [getAddedActualScreenshotsAsDiffObjects_] at h
  obtain ⟨s, _, hs⟩ := List.mem_filterMap.1 h
  by_cases ht : jsTruthyProp (objGet ep.screenshots s.1) = true
  · rw [if_pos ht] at hs
    simp at hs
  · rw [if_neg ht] at hs
    injection hs with hs'
    subst hs'
    rfl

theorem mem_getAllActual_path (ap : SnapshotPage) (q : String) (r : ImageDiffJson) :
    r ∈ getAllActualScreenshotsAsDiffObjects_ ap q → r.htmlFilePath = q := by
  intro h
  simp only [getAllActualScreenshotsAsDiffObjects_] at h
  obtain ⟨s, _, hs⟩ := List.mem_map.1 h
  subst hs
  rfl

theorem mem_getRemovedExpected_path (ep ap : SnapshotPage) (q : String) (r : ImageDiffJson) :
    r ∈ getRemovedExpectedScreenshotsAsDiffObjects_ ep ap q → r.htmlFilePath = q := by
  intro h
  simp only [getRemovedExpectedScreenshotsAsDiffObjects_] at h
  obtain ⟨s, _, hs⟩ := List.mem_filterMap.1 h
  by_cases ht : jsTruthyProp (objGet ap.screenshots s.1) = true
  · rw [if_pos ht] at hs
    simp at hs
  · rw [if_neg ht] at hs
    injection hs with hs'
    subst hs'
    rfl

theorem mem_getAllExpected_path (ep : SnapshotPage) (q : String) (r : ImageDiffJson) :
    r ∈ getAllExpectedScreenshotsAsDiffObjects_ ep q → r.htmlFilePath = q := by
  intro h
  simp only [getAllExpectedScreenshotsAsDiffObjects_] at h
  obtain ⟨s, _, hs⟩ := List.mem_map.1 h
  subst hs
  rfl

theorem countPair_results (computeDiff : ResembleFn) (A E : SnapshotSuite)
    (hA : suiteWF A) (hEt : suiteTruthy E) (p b : String) :
    countPair (pageComparisonResults computeDiff A E) p b =
      if hasPairB A p b && hasPairB E p b then 1 else 0 := by
  rw [pageComparisonResults, countPair_flatMap p b A hA.1 _ ?hpath]
  case hpath =>
    intro e r hr
    cases hE : objGet E e.1 with
    | none => rw [hE] at hr; simp at hr
    | some ep =>
      rw [hE] at hr
      exact mem_compareOnePage_path computeDiff e.1 ep.publicUrl e.2.publicUrl e.2 ep r hr
  cases hAp : objGet A p with
  | none => simp [hasPairB, hAp]
  | some ap =>
    have hndap : nodupKeys ap.screenshots := hA.2 (p, ap) (objGet_mem hAp)
    cases hEp : objGet E p with
    | none => simp [hasPairB, hAp, hEp, countPair]
    | some ep =>
      have hept : ∀ sc ∈ ep.screenshots, jsTruthy sc.2 = true :=
        fun sc hsc => hEt (p, ep) (objGet_mem hEp) sc hsc
      dsimp only
      rw [hEp, countPair_compareOnePage computeDiff p ep.publicUrl ap.publicUrl ap ep hndap b,
        jsTruthyProp_objGet_of_truthy hept]
      simp [hasPairB, hAp, hEp]

theorem countPair_getAdded (A E : SnapshotSuite) (hA : suiteWF A) (hEt : suiteTruthy E)
    (p b : String) :
    countPair (getAdded_ E A) p b =
      if hasPairB A p b && !(hasPairB E p b) then 1 else 0 := by
  rw [getAdded_, countPair_flatMap p b A hA.1 _ ?hpath]
  case hpath =>
    intro e r hr
    cases hE : objGet E e.1 with
    | none =>
      rw [hE] at hr
      exact mem_getAllActual_path e.2 e.1 r hr
    | some ep =>
      rw [hE] at hr
      exact mem_getAddedActual_path ep e.2 e.1 r hr
  cases hAp : objGet A p with
  | none => simp [hasPairB, hAp]
  | some ap =>
    have hndap : nodupKeys ap.screenshots := hA.2 (p, ap) (objGet_mem hAp)
    cases hEp : objGet E p with
    | none =>
      dsimp only
      rw [hEp, countPair_getAllActual ap p hndap b]
      simp [hasPairB, hAp, hEp]
    | some ep =>
      have hept : ∀ sc ∈ ep.screenshots, jsTruthy sc.2 = true :=
        fun sc hsc => hEt (p, ep) (objGet_mem hEp) sc hsc
      dsimp only
      rw [hEp, countPair_getAddedActual ep ap p hndap b,
        jsTruthyProp_objGet_of_truthy hept]
      simp [hasPairB, hAp, hEp]

theorem countPair_getRemoved (A E : SnapshotSuite) (hE : suiteWF E) (hAt : suiteTruthy A)
    (p b : String) :
    countPair (getRemoved_ E A) p b =
      if hasPairB E p b && !(hasPairB A p b) then 1 else 0 := by
  rw [getRemoved_, countPair_flatMap p b E hE.1 _ ?hpath]
  case hpath =>
    intro e r hr
    cases hA' : objGet A e.1 with
    | none =>
      rw [hA'] at hr
      exact mem_getAllExpected_path e.2 e.1 r hr
    | some ap =>
      rw [hA'] at hr
      exact mem_getRemovedExpected_path e.2 ap e.1 r hr
  cases hEp : objGet E p with
  | none => simp [hasPairB, hEp]
  | some ep =>
    have hndep : nodupKeys ep.screenshots := hE.2 (p, ep) (objGet_mem hEp)
    cases hAp : objGet A p with
    | none =>
      dsimp only
      rw [hAp, countPair_getAllExpected ep p hndep b]
      simp [hasPairB, hAp, hEp]
    | some ap =>
      have hapt : ∀ sc ∈ ap.screenshots, jsTruthy sc.2 = true :=
        fun sc hsc => hAt (p, ap) (objGet_mem hAp) sc hsc
      dsimp only
      rw [hAp, countPair_getRemovedExpected ep ap p hndep b,
        jsTruthyProp_objGet_of_truthy hapt]
      simp [hasPairB, hAp, hEp]

theorem countPair_filter_split (l : List ImageDiffJson) (p b : String) :
    countPair (l.filter (fun r => r.diffImageBuffer.isSome)) p b +
      countPair (l.filter (fun r => r.diffImageBuffer.isNone)) p b = countPair l p b := by
  induction l with
  | nil => rfl
  | cons r t ih =>
    simp only [countPair] at ih ⊢
    cases hby : r.diffImageBuffer <;>
      simp [List.filter_cons, hby, List.countP_cons] <;> omega



/-- C5 (amended): provided both manifests have unique keys and every
screenshot URL in them is truthy (a nonempty string), the four buckets of
the classified report partition the (page, browser) keys: a pair present
in both manifests lands in exactly one of diffs/unchanged, a pair present
only in the actual manifest lands exactly once in added, a pair present
only in the expected manifest lands exactly once in removed, and a pair in
neither appears nowhere. -/
theorem compareAllPages_partition (computeDiff : ResembleFn) (lc : LocaleCompareFn)
    (testCases : List UploadableTestCase) (A E : SnapshotSuite)
    (hA : suiteWF A) (hE : suiteWF E) (hAt : suiteTruthy A) (hEt : suiteTruthy E)
    (p b : String) :
    (hasPairB A p b = true → hasPairB E p b = true →
        countPair (compareAllPages computeDiff lc testCases A E).diffs p b +
          countPair (compareAllPages computeDiff lc testCases A E).unchanged p b = 1 ∧
        countPair (compareAllPages computeDiff lc testCases A E).added p b = 0 ∧
        countPair (compareAllPages computeDiff lc testCases A E).removed p b = 0) ∧
    (hasPairB A p b = true → hasPairB E p b = false →
        countPair (compareAllPages computeDiff lc testCases A E).added p b = 1 ∧
        countPair (compareAllPages computeDiff lc testCases A E).diffs p b = 0 ∧
        countPair (compareAllPages computeDiff lc testCases A E).unchanged p b = 0 ∧
        countPair (compareAllPages computeDiff lc testCases A E).removed p b = 0) ∧
    (hasPairB A p b = false → hasPairB E p b = true →
        countPair (compareAllPages computeDiff lc testCases A E).removed p b = 1 ∧
        countPair (compareAllPages computeDiff lc testCases A E).diffs p b = 0 ∧
        countPair (compareAllPages computeDiff lc testCases A E).unchanged p b = 0 ∧
        countPair (compareAllPages computeDiff lc testCases A E).added p b = 0) ∧
    (hasPairB A p b = false → hasPairB E p b = false →
        countPair (compareAllPages computeDiff lc testCases A E).diffs p b = 0 ∧
        countPair (compareAllPages computeDiff lc testCases A E).unchanged p b = 0 ∧
        countPair (compareAllPages computeDiff lc testCases A E).added p b = 0 ∧
        countPair (compareAllPages computeDiff lc testCases A E).removed p b = 0) := by
  have hd : countPair (compareAllPages computeDiff lc testCases A E).diffs p b =
      countPair ((pageComparisonResults computeDiff A E).filter
        (fun r => r.diffImageBuffer.isSome)) p b := by
    simp only [compareAllPages]
    exact countPair_perm (List.perm_insertionSort _ _) p b
  have hu : countPair (compareAllPages computeDiff lc testCases A E).unchanged p b =
      countPair ((pageComparisonResults computeDiff A E).filter
        (fun r => r.diffImageBuffer.isNone)) p b := by
    simp only [compareAllPages]
    exact countPair_perm (List.perm_insertionSort _ _) p b
  have ha : countPair (compareAllPages computeDiff lc testCases A E).added p b =
      countPair (getAdded_ E A) p b := by
    simp only [compareAllPages]
    exact countPair_perm (List.perm_insertionSort _ _) p b
  have hr : countPair (compareAllPages computeDiff lc testCases A E).removed p b =
      countPair (getRemoved_ E A) p b := by
    simp only [compareAllPages]
    exact countPair_perm (List.perm_insertionSort _ _) p b
  have hsum := countPair_filter_split (pageComparisonResults computeDiff A E) p b
  have hres := countPair_results computeDiff A E hA hEt p b
  have hadd := countPair_getAdded A E hA hEt p b
  have hrem := countPair_getRemoved A E hE hAt p b
  refine ⟨?_, ?_, ?_, ?_⟩ <;> intro h1 h2 <;>
    rw [h1, h2] at hres hadd hrem <;>
    simp at hres hadd hrem
  · exact ⟨by rw [hd, hu]; omega, by rw [ha]; omega, by rw [hr]; omega⟩
  · exact ⟨by rw [ha]; omega, by rw [hd]; omega, by rw [hu]; omega, by rw [hr]; omega⟩
  · exact ⟨by rw [hr]; omega, by rw [hd]; omega, by rw [hu]; omega, by rw [ha]; omega⟩
  · exact ⟨by rw [hd]; omega, by rw [hu]; omega, by rw [ha]; omega, by rw [hr]; omega⟩

/-- Witness for C5 (amended) at the spec's worked example: `(a.html,
chrome)` is present in both suites, lands exactly once in diffs/unchanged,
and not in added or removed. -/
theorem compareAllPages_partition_witness :
    countPair (compareAllPages resembleOne lcZero [] actualA baselineA).diffs
        "a.html" "chrome" +
      countPair (compareAllPages resembleOne lcZero [] actualA baselineA).unchanged
        "a.html" "chrome" = 1 ∧
    countPair (compareAllPages resembleOne lcZero [] actualA baselineA).added
        "a.html" "chrome" = 0 ∧
    countPair (compareAllPages resembleOne lcZero [] actualA baselineA).removed
        "a.html" "chrome" = 0 :=
  (compareAllPages_partition resembleOne lcZero [] actualA baselineA (by decide) (by decide)
    (by decide) (by decide) "a.html" "chrome").1 (by decide) (by decide)

/-- Counterexample for C5 as stated: with an actual suite whose chrome URL
is the empty string, the pair `(a.html, chrome)` is present in both
manifests yet lands both in the diffs bucket (the empty string is iterated
and compared) and in the removed bucket (the empty string is falsy for the
removal check) — one pair in two buckets. -/
theorem compareAllPages_partition_cex :
    hasPairB actualC5 "a.html" "chrome" = true ∧
    hasPairB baselineA "a.html" "chrome" = true ∧
    countPair (compareAllPages resembleOne lcZero [] actualC5 baselineA).diffs
      "a.html" "chrome" = 1 ∧
    countPair (compareAllPages resembleOne lcZero [] actualC5 baselineA).removed
      "a.html" "chrome" = 1 := by
  refine ⟨by decide, by decide, ?_, ?_⟩ <;>
    norm_num [compareAllPages, pageComparisonResults, compareOnePage_, compareOneImage_,
      resembleOne, lcZero, actualC5, baselineA, objGet, jsTruthy, jsTruthyProp, sortLe,
      compareDiffsForSorting, List.insertionSort, List.orderedInsert,
      getAdded_, getRemoved_, getAddedActualScreenshotsAsDiffObjects_,
      getRemovedExpectedScreenshotsAsDiffObjects_, countPair, List.countP_cons]



/-! ### Claim C3: infrastructure for the filtered-vs-full merge comparison -/

theorem nodupKeys_foldl_objSet (l : List β) (key : β → String) (val : β → α)
    (init : List (String × α)) (h : nodupKeys init) :
    nodupKeys (l.foldl (fun m x => objSet m (key x) (val x)) init) := by
  induction l generalizing init with
  | nil => exact h
  | cons x t ih => exact ih _ (nodup_keys_objSet h)

theorem mem_foldl_objSet (l : List β) (key : β → String) (val : β → α)
    (init : List (String × α)) :
    ∀ e ∈ l.foldl (fun m x => objSet m (key x) (val x)) init,
      e ∈ init ∨ ∃ x ∈ l, e.2 = val x := by
  induction l generalizing init with
  | nil => exact fun e he => Or.inl he
  | cons x t ih =>
    intro e he
    rcases ih _ e he with hin | ⟨x', hx', hval⟩
    · rcases mem_objSet_elim hin with heq | hin'
      · exact Or.inr ⟨x, List.mem_cons_self x t, congrArg Prod.snd heq⟩
      · exact Or.inl hin'
    · exact Or.inr ⟨x', List.mem_cons_of_mem x hx', hval⟩

theorem suiteWF_fromTestCases (testCases : List UploadableTestCase) :
    suiteWF (fromTestCases testCases) := by
  constructor
  · exact nodupKeys_foldl_objSet testCases _ _ [] (by simp [nodupKeys])
  · intro e he
    rcases mem_foldl_objSet testCases _ _ [] e he with hin | ⟨tc, _, hval⟩
    · simp at hin
    · rw [hval]
      exact nodupKeys_foldl_objSet tc.screenshotImageFiles _ _ [] (by simp [nodupKeys])

theorem suiteTruthy_fromTestCases (testCases : List UploadableTestCase)
    (htc : ∀ tc ∈ testCases, ∀ f ∈ tc.screenshotImageFiles, f.publicUrl ≠ "") :
    suiteTruthy (fromTestCases testCases) := by
  intro e he sc hsc
  rcases mem_foldl_objSet testCases _ _ [] e he with hin | ⟨tc, htcmem, hval⟩
  · simp at hin
  · rw [hval] at hsc
    rcases mem_foldl_objSet tc.screenshotImageFiles _ _ [] sc hsc with hin2 | ⟨f, hf, hval2⟩
    · simp at hin2
    · rw [hval2]
      simp [jsTruthy, htc tc htcmem f hf]

theorem objGet_isSome_of_hasPairB {s : SnapshotSuite} {p b : String}
    (h : hasPairB s p b = true) : (objGet s p).isSome = true := by
  rw [hasPairB] at h
  cases ho : objGet s p with
  | none => rw [ho] at h; simp at h
  | some _ => rfl

theorem any_pair_iff_countPair_pos (l : List ImageDiffJson) (q c : String) :
    (l.any (fun d => d.htmlFilePath == q && d.userAgentAlias == c) = true) ↔
      0 < countPair l q c := by
  rw [countPair, List.countP_pos, List.any_eq_true]

theorem filter_findMatchingFilter_self (l : List ImageDiffJson) :
    l.filter (findMatchingFilter (l.map entryPair)) = l := by
  apply List.filter_eq_self.2
  intro d hd
  rw [findMatchingFilter, List.any_eq_true]
  exact ⟨entryPair d, List.mem_map.2 ⟨d, hd, rfl⟩, by simp [entryPair]⟩

theorem suiteWF_objSet {data : SnapshotSuite} {p : String} {page : SnapshotPage}
    (hwf : suiteWF data) (hpage : nodupKeys page.screenshots) :
    suiteWF (objSet data p page) := by
  refine ⟨nodup_keys_objSet hwf.1, fun e he => ?_⟩
  rcases mem_objSet_elim he with heq | hin
  · rw [congrArg Prod.snd heq]
    exact hpage
  · exact hwf.2 e hin

theorem hasPairB_objSet_screenshots (data : SnapshotSuite) (p : String) (page : SnapshotPage)
    (hpage : objGet data p = some page) (c0 : String) (v : Url) (q c : String) :
    hasPairB (objSet data p { page with screenshots := objSet page.screenshots c0 v }) q c =
      (hasPairB data q c || (p == q && c0 == c)) := by
  rw [hasPairB, hasPairB, objGet_objSet]
  by_cases hq : p = q
  · subst hq
    rw [if_pos rfl, hpage]
    dsimp only
    rw [objGet_objSet]
    by_cases hc : c0 = c
    · subst hc
      simp
    · simp [hc]
  · rw [if_neg hq]
    simp [hq]

theorem approveOneDiff_step {data : SnapshotSuite} {d : ImageDiffJson}
    (hwf : suiteWF data) (h : (objGet data d.htmlFilePath).isSome = true) :
    ∃ out, approveOneDiff data d = some out ∧
      out.map Prod.fst = data.map Prod.fst ∧
      suiteWF out ∧
      ∀ q c, hasPairB out q c =
        (hasPairB data q c || (d.htmlFilePath == q && d.userAgentAlias == c)) := by
  obtain ⟨page, hpage⟩ := Option.isSome_iff_exists.1 h
  refine ⟨_, by rw [approveOneDiff, hpage], ?_, ?_, ?_⟩
  · exact map_fst_objSet_of_mem _ (objGet_isSome_iff_mem_keys.1 h)
  · exact suiteWF_objSet hwf (nodup_keys_objSet (hwf.2 (d.htmlFilePath, page) (objGet_mem hpage)))
  · exact fun q c => hasPairB_objSet_screenshots data d.htmlFilePath page hpage
      d.userAgentAlias d.snapshotPageUrl q c

theorem approveOneAdded_step (data : SnapshotSuite) (a : ImageDiffJson) (hwf : suiteWF data) :
    suiteWF (approveOneAdded data a) ∧
    (∀ q, (objGet data q).isSome = true →
      (objGet (approveOneAdded data a) q).isSome = true) ∧
    ∀ q c, hasPairB (approveOneAdded data a) q c =
      (hasPairB data q c || (a.htmlFilePath == q && a.userAgentAlias == c)) := by
  rw [approveOneAdded]
  cases hpage : objGet data a.htmlFilePath with
  | some page =>
    dsimp only
    refine ⟨suiteWF_objSet hwf
      (nodup_keys_objSet (hwf.2 (a.htmlFilePath, page) (objGet_mem hpage))), ?_, ?_⟩
    · intro q hq
      rw [objGet_isSome_iff_mem_keys] at hq ⊢
      exact mem_keys_objSet.2 (Or.inr hq)
    · exact fun q c => hasPairB_objSet_screenshots data a.htmlFilePath page hpage
        a.userAgentAlias a.snapshotPageUrl q c
  | none =>
    dsimp only
    refine ⟨suiteWF_objSet hwf (by simp [nodupKeys, objSet]), ?_, ?_⟩
    · intro q hq
      rw [objGet_isSome_iff_mem_keys] at hq ⊢
      exact mem_keys_objSet.2 (Or.inr hq)
    · intro q c
      rw [hasPairB, hasPairB, objGet_objSet]
      by_cases hq : a.htmlFilePath = q
      · subst hq
        rw [if_pos rfl, hpage]
        dsimp only
        rw [objGet_objSet]
        by_cases hc : a.userAgentAlias = c
        · subst hc
          simp
        · simp [hc, objGet]
      · rw [if_neg hq]
        simp [hq]

theorem approveOneRemoved_step {data : SnapshotSuite} {rm : ImageDiffJson}
    (hwf : suiteWF data) (h : (objGet data rm.htmlFilePath).isSome = true) :
    ∃ out, approveOneRemoved data rm = some out ∧
      out.map Prod.fst = data.map Prod.fst ∧
      suiteWF out ∧
      ∀ q c, hasPairB out q c =
        (hasPairB data q c && !(rm.htmlFilePath == q && rm.userAgentAlias == c)) := by
  obtain ⟨page, hpage⟩ := Option.isSome_iff_exists.1 h
  have hndpage : nodupKeys page.screenshots := hwf.2 (rm.htmlFilePath, page) (objGet_mem hpage)
  have hstep : approveOneRemoved data rm =
      some (objSet data rm.htmlFilePath
        { page with screenshots := objDelete page.screenshots rm.userAgentAlias }) := by
    rw [approveOneRemoved, hpage]
    simp [screenshotsLengthProp]
  refine ⟨_, hstep, ?_, ?_, ?_⟩
  · exact map_fst_objSet_of_mem _ (objGet_isSome_iff_mem_keys.1 h)
  · exact suiteWF_objSet hwf (nodup_keys_objDelete hndpage)
  · intro q c
    rw [hasPairB, hasPairB, objGet_objSet]
    by_cases hq : rm.htmlFilePath = q
    · subst hq
      rw [if_pos rfl, hpage]
      dsimp only
      by_cases hc : rm.userAgentAlias = c
      · subst hc
        rw [objGet_objDelete_self hndpage]
        simp
      · rw [objGet_objDelete_ne _ hc]
        simp [hc]
    · rw [if_neg hq]
      simp [hq]



theorem foldlM_approveOneDiff (ds : List ImageDiffJson) (data : SnapshotSuite)
    (hwf : suiteWF data)
    (h : ∀ d ∈ ds, (objGet data d.htmlFilePath).isSome = true) :
    ∃ out, ds.foldlM approveOneDiff data = some out ∧
      out.map Prod.fst = data.map Prod.fst ∧
      suiteWF out ∧
      ∀ q c, hasPairB out q c =
        (hasPairB data q c ||
          ds.any (fun d => d.htmlFilePath == q && d.userAgentAlias == c)) := by
  induction ds generalizing data with
  | nil => exact ⟨data, rfl, rfl, hwf, by simp⟩
  | cons d t ih =>
    obtain ⟨d1, hd1, hkeys1, hwf1, hpair1⟩ :=
      approveOneDiff_step hwf (h d (List.mem_cons_self d t))
    have hnext : ∀ d' ∈ t, (objGet d1 d'.htmlFilePath).isSome = true := by
      intro d' hd'
      rw [objGet_isSome_iff_mem_keys, hkeys1, ← objGet_isSome_iff_mem_keys]
      exact h d' (List.mem_cons_of_mem d hd')
    obtain ⟨out, hout, hkeys, hwfo, hpairs⟩ := ih d1 hwf1 hnext
    refine ⟨out, ?_, hkeys.trans hkeys1, hwfo, ?_⟩
    · rw [List.foldlM_cons, hd1]
      simpa using hout
    · intro q c
      rw [hpairs, hpair1, List.any_cons, Bool.or_assoc]

theorem foldl_approveOneAdded (as : List ImageDiffJson) (data : SnapshotSuite)
    (hwf : suiteWF data) :
    suiteWF (as.foldl approveOneAdded data) ∧
    (∀ q, (objGet data q).isSome = true →
      (objGet (as.foldl approveOneAdded data) q).isSome = true) ∧
    ∀ q c, hasPairB (as.foldl approveOneAdded data) q c =
      (hasPairB data q c ||
        as.any (fun a => a.htmlFilePath == q && a.userAgentAlias == c)) := by
  induction as generalizing data with
  | nil => exact ⟨hwf, fun q hq => hq, by simp⟩
  | cons a t ih =>
    obtain ⟨hwf1, hpres1, hpair1⟩ := approveOneAdded_step data a hwf
    obtain ⟨hwfo, hpreso, hpairs⟩ := ih (approveOneAdded data a) hwf1
    simp only [List.foldl_cons]
    refine ⟨hwfo, fun q hq => hpreso q (hpres1 q hq), fun q c => ?_⟩
    rw [hpairs, hpair1, List.any_cons, Bool.or_assoc]

theorem foldlM_approveOneRemoved (rs : List ImageDiffJson) (data : SnapshotSuite)
    (hwf : suiteWF data)
    (h : ∀ rm ∈ rs, (objGet data rm.htmlFilePath).isSome = true) :
    ∃ out, rs.foldlM approveOneRemoved data = some out ∧
      out.map Prod.fst = data.map Prod.fst ∧
      suiteWF out ∧
      ∀ q c, hasPairB out q c =
        (hasPairB data q c &&
          !(rs.any (fun rm => rm.htmlFilePath == q && rm.userAgentAlias == c))) := by
  induction rs generalizing data with
  | nil => exact ⟨data, rfl, rfl, hwf, by simp⟩
  | cons rm t ih =>
    obtain ⟨d1, hd1, hkeys1, hwf1, hpair1⟩ :=
      approveOneRemoved_step hwf (h rm (List.mem_cons_self rm t))
    have hnext : ∀ rm' ∈ t, (objGet d1 rm'.htmlFilePath).isSome = true := by
      intro rm' hrm'
      rw [objGet_isSome_iff_mem_keys, hkeys1, ← objGet_isSome_iff_mem_keys]
      exact h rm' (List.mem_cons_of_mem rm hrm')
    obtain ⟨out, hout, hkeys, hwfo, hpairs⟩ := ih d1 hwf1 hnext
    refine ⟨out, ?_, hkeys.trans hkeys1, hwfo, ?_⟩
    · rw [List.foldlM_cons, hd1]
      simpa using hout
    · intro q c
      rw [hpairs, hpair1, List.any_cons, Bool.not_or, ← Bool.and_assoc]

theorem updateAllScreenshots_objGet (reportJson : ReportSuiteJson)
    (oldJsonData : SnapshotSuite) (p : String) :
    objGet (updateAllScreenshots_ reportJson oldJsonData) p =
      (objGet (fromTestCases reportJson.testCases) p).map (fun newPage =>
        match objGet oldJsonData p with
        | none => newPage
        | some oldPage =>
          { publicUrl := oldPage.publicUrl
            screenshots := newPage.screenshots.map (fun s =>
              match objGet oldPage.screenshots s.1 with
              | some oldUrl => if jsTruthy oldUrl then (s.1, oldUrl) else s
              | none => s) }) := by
  have hfun : (fun (entry : String × SnapshotPage) =>
      match objGet oldJsonData entry.1 with
      | none => entry
      | some oldPage =>
        let screenshotHasDiff := fun (browserKey : String) =>
          reportJson.diffs.any (fun diff =>
            diff.htmlFilePath == entry.1 && jsStrictEq (browserKeyProp diff) browserKey)
        let screenshots := entry.2.screenshots.map (fun s =>
          match objGet oldPage.screenshots s.1 with
          | some oldUrl =>
            if jsTruthy oldUrl && !(screenshotHasDiff s.1) then (s.1, oldUrl) else s
          | none => s)
        let pageHasDiffs := entry.2.screenshots.any (fun s => screenshotHasDiff s.1)
        (entry.1,
          { publicUrl := if pageHasDiffs then entry.2.publicUrl else oldPage.publicUrl
            screenshots := screenshots })) =
      (fun (entry : String × SnapshotPage) => (entry.1,
        match objGet oldJsonData entry.1 with
        | none => entry.2
        | some oldPage =>
          { publicUrl := oldPage.publicUrl
            screenshots := entry.2.screenshots.map (fun s =>
              match objGet oldPage.screenshots s.1 with
              | some oldUrl => if jsTruthy oldUrl then (s.1, oldUrl) else s
              | none => s) })) := by
    funext entry
    cases h : objGet oldJsonData entry.1 with
    | none => simp [h]
    | some oldPage' =>
      simp only [h, screenshotHasDiff_false, Bool.not_false, Bool.and_true,
        Bool.false_eq_true, if_false, ite_false]
      simp
  unfold updateAllScreenshots_
  rw [hfun, objGet_map_entry]

theorem hasPairB_updateAllScreenshots (reportJson : ReportSuiteJson)
    (oldJsonData : SnapshotSuite) (p b : String) :
    hasPairB (updateAllScreenshots_ reportJson oldJsonData) p b =
      hasPairB (fromTestCases reportJson.testCases) p b := by
  rw [hasPairB, hasPairB, updateAllScreenshots_objGet]
  cases hnew : objGet (fromTestCases reportJson.testCases) p with
  | none => rfl
  | some newPage =>
    simp only [Option.map_some']
    cases hold : objGet oldJsonData p with
    | none => rfl
    | some oldPage =>
      dsimp only
      have hkeys : (newPage.screenshots.map (fun s =>
          match objGet oldPage.screenshots s.1 with
          | some oldUrl => if jsTruthy oldUrl then (s.1, oldUrl) else s
          | none => s)).map Prod.fst = newPage.screenshots.map Prod.fst := by
        rw [List.map_map]
        apply List.map_congr_left
        intro s _
        cases hsc : objGet oldPage.screenshots s.1 with
        | none => simp [hsc]
        | some u => by_cases ht : jsTruthy u = true <;> simp [hsc, ht]
      rw [Bool.eq_iff_iff, objGet_isSome_iff_mem_keys, objGet_isSome_iff_mem_keys, hkeys]



theorem any_pair_eq_of_count (l : List ImageDiffJson) (q c : String) (bcond : Bool)
    (h : countPair l q c = if bcond then 1 else 0) :
    l.any (fun d => d.htmlFilePath == q && d.userAgentAlias == c) = bcond := by
  cases hval : l.any (fun d => d.htmlFilePath == q && d.userAgentAlias == c) with
  | true =>
    have hpos := (any_pair_iff_countPair_pos l q c).1 hval
    cases bcond with
    | false => simp at h; omega
    | true => rfl
  | false =>
    cases bcond with
    | false => rfl
    | true =>
      simp at h
      have hpos := (any_pair_iff_countPair_pos l q c).2 (by omega)
      rw [hval] at hpos
      exact absurd hpos (by simp)

/-- C3 (amended): for a well-formed, truthy baseline and truthy test-case
URLs, running the filtered-approval merge with filters covering the full
set of the report's diffs, added and removed entries succeeds and produces
a baseline with the same set of (pageId, browserId) screenshot keys as the
unfiltered full-approval merge — the two manifests themselves differ in
general (see the counterexample): they disagree on stored screenshot URLs
(the filtered merge writes each entry's snapshot page URL, the full merge
keeps baseline image URLs), and baseline pages absent from the run are
retained (as empty page entries) by the filtered merge but dropped by the
full merge. -/
theorem filteredFullApproval_same_pairs_as_fullApproval (computeDiff : ResembleFn)
    (lc : LocaleCompareFn) (testCases : List UploadableTestCase) (E : SnapshotSuite)
    (hE : suiteWF E) (hEt : suiteTruthy E)
    (htc : ∀ tc ∈ testCases, ∀ f ∈ tc.screenshotImageFiles, f.publicUrl ≠ "") :
    ∃ F,
      writeFilteredToDisk_
          (compareAllPages computeDiff lc testCases (fromTestCases testCases) E)
          ((compareAllPages computeDiff lc testCases (fromTestCases testCases) E).diffs.map
            entryPair)
          ((compareAllPages computeDiff lc testCases (fromTestCases testCases) E).added.map
            entryPair)
          ((compareAllPages computeDiff lc testCases (fromTestCases testCases) E).removed.map
            entryPair)
          E = some F ∧
      ∀ p b, hasPairB F p b =
        hasPairB (updateAllScreenshots_
          (compareAllPages computeDiff lc testCases (fromTestCases testCases) E) E) p b := by
  have hAwf : suiteWF (fromTestCases testCases) := suiteWF_fromTestCases testCases
  have hAt : suiteTruthy (fromTestCases testCases) := suiteTruthy_fromTestCases testCases htc
  set A := fromTestCases testCases with hAdef
  set r := compareAllPages computeDiff lc testCases A E with hrdef
  have haddC : ∀ q c, countPair r.added q c =
      if hasPairB A q c && !(hasPairB E q c) then 1 else 0 := by
    intro q c
    have hperm : countPair r.added q c = countPair (getAdded_ E A) q c := by
      rw [hrdef]
      simp only [compareAllPages]
      exact countPair_perm (List.perm_insertionSort _ _) q c
    rw [hperm, countPair_getAdded A E hAwf hEt q c]
  have hremC : ∀ q c, countPair r.removed q c =
      if hasPairB E q c && !(hasPairB A q c) then 1 else 0 := by
    intro q c
    have hperm : countPair r.removed q c = countPair (getRemoved_ E A) q c := by
      rw [hrdef]
      simp only [compareAllPages]
      exact countPair_perm (List.perm_insertionSort _ _) q c
    rw [hperm, countPair_getRemoved A E hE hAt q c]
  have hdiffBound : ∀ q c,
      r.diffs.any (fun d => d.htmlFilePath == q && d.userAgentAlias == c) = true →
      (hasPairB A q c && hasPairB E q c) = true := by
    intro q c hany
    have hpos := (any_pair_iff_countPair_pos _ q c).1 hany
    have hperm : countPair r.diffs q c =
        countPair ((pageComparisonResults computeDiff A E).filter
          (fun x => x.diffImageBuffer.isSome)) q c := by
      rw [hrdef]
      simp only [compareAllPages]
      exact countPair_perm (List.perm_insertionSort _ _) q c
    have hsplit := countPair_filter_split (pageComparisonResults computeDiff A E) q c
    have hres := countPair_results computeDiff A E hAwf hEt q c
    by_contra hfalse
    have hzero : (hasPairB A q c && hasPairB E q c) = false := by
      revert hfalse
      cases hasPairB A q c && hasPairB E q c <;> simp
    rw [hzero] at hres
    simp at hres
    omega
  have hanyAdd : ∀ q c,
      (r.added.any (fun d => d.htmlFilePath == q && d.userAgentAlias == c)) =
        (hasPairB A q c && !(hasPairB E q c)) :=
    fun q c => any_pair_eq_of_count _ q c _ (haddC q c)
  have hanyRem : ∀ q c,
      (r.removed.any (fun d => d.htmlFilePath == q && d.userAgentAlias == c)) =
        (hasPairB E q c && !(hasPairB A q c)) :=
    fun q c => any_pair_eq_of_count _ q c _ (hremC q c)
  have hdiffpages : ∀ d ∈ r.diffs, (objGet E d.htmlFilePath).isSome = true := by
    intro d hd
    have hany : r.diffs.any (fun x => x.htmlFilePath == d.htmlFilePath &&
        x.userAgentAlias == d.userAgentAlias) = true :=
      List.any_eq_true.2 ⟨d, hd, by simp⟩
    have hAE := hdiffBound _ _ hany
    rw [Bool.and_eq_true] at hAE
    exact objGet_isSome_of_hasPairB hAE.2
  have hrempagesE : ∀ rm ∈ r.removed, hasPairB E rm.htmlFilePath rm.userAgentAlias = true := by
    intro rm hrm
    have hany : r.removed.any (fun x => x.htmlFilePath == rm.htmlFilePath &&
        x.userAgentAlias == rm.userAgentAlias) = true :=
      List.any_eq_true.2 ⟨rm, hrm, by simp⟩
    rw [hanyRem] at hany
    rw [Bool.and_eq_true] at hany
    exact hany.1
  obtain ⟨D1, hD1, hkeys1, hwf1, hpair1⟩ := foldlM_approveOneDiff r.diffs E hE hdiffpages
  obtain ⟨hwf2, hpres2, hpair2⟩ := foldl_approveOneAdded r.added D1 hwf1
  have hrempages : ∀ rm ∈ r.removed,
      (objGet (r.added.foldl approveOneAdded D1) rm.htmlFilePath).isSome = true := by
    intro rm hrm
    apply hpres2
    rw [objGet_isSome_iff_mem_keys, hkeys1, ← objGet_isSome_iff_mem_keys]
    exact objGet_isSome_of_hasPairB (hrempagesE rm hrm)
  obtain ⟨F, hF, hkeys3, hwf3, hpair3⟩ :=
    foldlM_approveOneRemoved r.removed (r.added.foldl approveOneAdded D1) hwf2 hrempages
  refine ⟨F, ?_, ?_⟩
  · simp only [writeFilteredToDisk_, filter_findMatchingFilter_self]
    rw [hD1]
    simpa using hF
  · intro p b
    rw [hpair3, hpair2, hpair1, hanyAdd, hanyRem, hasPairB_updateAllScreenshots]
    have hrtc : r.testCases = testCases := by
      rw [hrdef]
      simp only [compareAllPages]
    rw [hrtc, ← hAdef]
    rcases Bool.eq_false_or_eq_true (hasPairB A p b) with hA0 | hA0 <;>
      rcases Bool.eq_false_or_eq_true (hasPairB E p b) with hE0 | hE0
    · simp [hA0, hE0]
    · simp [hA0, hE0]
    · simp [hA0, hE0]
    · cases hD0 : r.diffs.any (fun d => d.htmlFilePath == p && d.userAgentAlias == b) with
      | false => simp [hA0, hE0, hD0]
      | true =>
        have hbad := hdiffBound p b hD0
        rw [hA0, hE0] at hbad
        simp at hbad

/-- Witness for C3 (amended): at the concrete run `tcsC3` against
`baselineA` the filtered merge with full filters succeeds. -/
theorem filteredFullApproval_same_pairs_witness :
    (writeFilteredToDisk_
        (compareAllPages resembleOne lcZero tcsC3 (fromTestCases tcsC3) baselineA)
        ((compareAllPages resembleOne lcZero tcsC3 (fromTestCases tcsC3) baselineA).diffs.map
          entryPair)
        ((compareAllPages resembleOne lcZero tcsC3 (fromTestCases tcsC3) baselineA).added.map
          entryPair)
        ((compareAllPages resembleOne lcZero tcsC3 (fromTestCases tcsC3) baselineA).removed.map
          entryPair)
        baselineA).isSome = true := by
  obtain ⟨F, hF, _⟩ := filteredFullApproval_same_pairs_as_fullApproval resembleOne lcZero
    tcsC3 baselineA (by decide) (by decide) (by decide)
  rw [hF]
  rfl

/-- Counterexample for C3 as stated: at the run `tcsC3` against
`baselineA`, the filtered merge with full filters stores the diff's
snapshot page URL `pnew` at `(a.html, chrome)`, while the unfiltered
full-approval merge keeps the baseline image `imgA` — the two merged
manifests are not equal. -/
theorem filteredFullApproval_ne_fullApproval_cex :
    writeFilteredToDisk_ reportC3val (reportC3val.diffs.map entryPair)
        (reportC3val.added.map entryPair) (reportC3val.removed.map entryPair) baselineA =
      some [("a.html", { publicUrl := some "u1", screenshots := [("chrome", some "pnew")] })] ∧
    updateAllScreenshots_ reportC3val baselineA =
      [("a.html", { publicUrl := some "u1", screenshots := [("chrome", some "imgA")] })] ∧
    ([("a.html",
        { publicUrl := some "u1",
          screenshots := [("chrome", some "pnew")] })] : SnapshotSuite) ≠
      [("a.html", { publicUrl := some "u1", screenshots := [("chrome", some "imgA")] })] := by
  refine ⟨?_, ?_, by decide⟩ <;>
    norm_num [reportC3val, compareAllPages, pageComparisonResults, compareOnePage_,
      compareOneImage_, resembleOne, lcZero, tcsC3, baselineA, fromTestCases, testCasePage,
      objGet, objSet, jsTruthy, jsTruthyProp, sortLe, compareDiffsForSorting,
      List.insertionSort, List.orderedInsert, getAdded_, getRemoved_,
      getAddedActualScreenshotsAsDiffObjects_, getRemovedExpectedScreenshotsAsDiffObjects_,
      writeFilteredToDisk_, findMatchingFilter, entryPair, approveOneDiff, approveOneAdded,
      approveOneRemoved, screenshotsLengthProp, updateAllScreenshots_, browserKeyProp,
      jsStrictEq] <;>
    decide


end MDC
